import Mathlib

/-
Shallow embedding of the claude-agent-platform core:
  src/src/core/agent-coordinator.js   (AgentCoordinator)
  src/src/core/base-framework.js      (BaseFramework, from the repository docs part)
  src/src/frameworks/simple-framework.js (SimpleFramework)

Modelling conventions:
  - JS Map and plain-object maps become insertion-ordered association lists
    (alGet / alSet / alDelete mirror Map.get / Map.set / Map.delete).
  - The single setTimeout in spawnAgent (the simulated TaskExecutor finishing
    after 1000 ms) becomes a pending-completion queue in the state; the event
    loop firing those timers during a sleep is the function fireCompletions.
  - waitForAgent polls getAgentStatus in a loop bounded by the timeout; the
    number of remaining polls (timeout / 100 ms interval) is explicit fuel.
    The default timeout 30000 with interval 100 gives fuel 300 (waitFuel).
  - Exceptions become Except String; since a JS throw does not roll back
    state, stateful operations return the post-call state next to the result.
  - Timestamps (created, message timestamp, startTime, endTime) and the
    opaque options bag are omitted: they are wall-clock or opaque values no
    observable behaviour in scope depends on.
  - EventEmitter emissions are logged in an events list (coordinator events
    in CoordState, framework events in FrameworkState).
-/

deriving instance DecidableEq for Except

/-- Payload passed to completeAgent by the simulated executor:
the object literal with completed and output fields. -/
structure AgentResult where
  completed : Bool
  output : String
deriving DecidableEq

/-- An agent record as built in spawnAgent (created / options omitted,
see the conventions above). -/
structure Agent where
  id : String
  task : String
  status : String
  results : Option AgentResult
deriving DecidableEq

/-- A message as built in sendMessage (timestamp omitted). -/
structure Message where
  fromAgent : String
  toAgent : String
  message : Option AgentResult
deriving DecidableEq

/-- Events emitted on the EventEmitter channels of the coordinator and the
framework. The source has no emit call for an agent-failed event, so no such
constructor exists. -/
inductive Event where
  | agentSpawned (agentId task : String)
  | messageSent (msg : Message)
  | agentCompleted (agentId : String) (results : AgentResult)
  | agentTerminated (agentId : String)
  | coordinatorCleanup
  | workflowCompleted (workflowId : String)
  | workflowFailed (workflowId : String) (error : String)
deriving DecidableEq

/-- Lookup in an insertion-ordered association list (JS Map.get). -/
def alGet {α : Type} (m : List (String × α)) (k : String) : Option α :=
  match m with
  | [] => none
  | (k1, v) :: rest => if k1 = k then some v else alGet rest k

/-- Update in an insertion-ordered association list (JS Map.set): replaces in
place when the key exists, appends otherwise. -/
def alSet {α : Type} (m : List (String × α)) (k : String) (v : α) : List (String × α) :=
  match m with
  | [] => [(k, v)]
  | (k1, v1) :: rest => if k1 = k then (k1, v) :: rest else (k1, v1) :: alSet rest k v

/-- Deletion from an association list (JS Map.delete); Map keys are unique,
so removing every entry under the key is removing the entry. -/
def alDelete {α : Type} (m : List (String × α)) (k : String) : List (String × α) :=
  match m with
  | [] => []
  | (k1, v1) :: rest => if k1 = k then alDelete rest k else (k1, v1) :: alDelete rest k

/-- State of one AgentCoordinator: the agents map, the messageQueues map,
the not-yet-fired setTimeout completion callbacks, and the emitted events. -/
structure CoordState where
  agents : List (String × Agent)
  messageQueues : List (String × List Message)
  pending : List (String × AgentResult)
  events : List Event
deriving DecidableEq

/-- A freshly constructed AgentCoordinator. -/
def initialCoord : CoordState :=
  { agents := [], messageQueues := [], pending := [], events := [] }

/-- JS String.prototype.toLowerCase restricted to the ASCII range used here. -/
def jsToLower (s : String) : String :=
  String.mk (s.data.map Char.toLower)

/-- JS String.prototype.split with a one-character separator, over a char list. -/
def splitOnChar (sep : Char) : List Char → List (List Char)
  | [] => [[]]
  | x :: t =>
    match splitOnChar sep t with
    | [] => [[]]
    | h :: rest => if x = sep then [] :: h :: rest else (x :: h) :: rest

/-- JS agentId.split(sep).pop(): the segment after the last separator. -/
def jsSplitLast (s : String) (sep : Char) : String :=
  String.mk ((splitOnChar sep s.data).getLastD [])

/-- Contiguous-sublist check on character lists. -/
def listInfix (needle : List Char) : List Char → Bool
  | [] => needle.isEmpty
  | c :: t => needle.isPrefixOf (c :: t) || listInfix needle t

/-- JS String.prototype.includes as substring containment. -/
def jsIncludes (s sub : String) : Bool :=
  listInfix sub.data s.data

/-- generateRealisticResult(agentId, task): the simulated TaskExecutor output,
a cascade of substring checks on the lowered task and on the agent id. -/
def generateRealisticResult (agentId task : String) : String :=
  let lowerTask := jsToLower task
  if jsIncludes lowerTask "translate" || jsIncludes agentId "translator" then
    "Spanish: ¡Hola, Mundo! 🇪🇸\nFrench: Bonjour, le Monde! 🇫🇷\nJapanese: こんにちは、世界！ 🇯🇵"
  else if jsIncludes lowerTask "format" || jsIncludes lowerTask "display" || jsIncludes agentId "formatter" then
    "\n╔══════════════════════════════════════╗\n║          MULTI-LANGUAGE GREETINGS    ║\n╠══════════════════════════════════════╣\n║ English:  Hello, World! 🌍           ║\n║ Spanish:  ¡Hola, Mundo! 🇪🇸          ║\n║ French:   Bonjour, le Monde! 🇫🇷     ║\n║ Japanese: こんにちは、世界！ 🇯🇵      ║\n╚══════════════════════════════════════╝"
  else if jsIncludes lowerTask "greeting" || jsIncludes lowerTask "hello" || jsIncludes agentId "greeter" then
    "Hello, World! 🌍 Welcome to the Claude Agent Platform!"
  else if jsIncludes lowerTask "prime" || jsIncludes agentId "prime" then
    "Prime numbers 1-100: 2, 3, 5, 7, 11, 13, 17, 19, 23, 29, 31, 37, 41, 43, 47, 53, 59, 61, 67, 71, 73, 79, 83, 89, 97"
  else if jsIncludes lowerTask "fibonacci" || jsIncludes agentId "fibonacci" then
    "Fibonacci sequence (20): 0, 1, 1, 2, 3, 5, 8, 13, 21, 34, 55, 89, 144, 233, 377, 610, 987, 1597, 2584, 4181"
  else if jsIncludes lowerTask "statistics" || jsIncludes lowerTask "mean" || jsIncludes agentId "statistics" then
    "Statistics for [23, 45, 67, 23, 89, 12, 45, 67, 89, 23]: Mean = 48.3, Median = 45, Mode = 23"
  else if jsIncludes lowerTask "circle" || jsIncludes lowerTask "geometry" || jsIncludes agentId "geometry" then
    "Circle (radius 7): Area = 153.94 square units, Perimeter = 43.98 units"
  else if jsIncludes lowerTask "random" || jsIncludes lowerTask "generate" || jsIncludes agentId "generator" then
    "Generated numbers: [23, 7, 41, 15, 38]"
  else if jsIncludes lowerTask "sort" || jsIncludes agentId "sorter" then
    "Sorted numbers: [7, 15, 23, 38, 41]"
  else if jsIncludes lowerTask "sum" || jsIncludes lowerTask "average" || jsIncludes agentId "analyzer" then
    "Analysis: Sum = 124, Average = 24.8, Standard Deviation = 13.2"
  else if (jsIncludes lowerTask "report" && jsIncludes agentId "reporter") then
    "📊 COMPUTATION SUMMARY: Successfully processed 5 numbers with complete statistical analysis"
  else if jsIncludes lowerTask "structure" || jsIncludes agentId "structure" then
    "Document structure: 5 sections, 12 headings, 47 paragraphs, hierarchical organization detected"
  else if jsIncludes lowerTask "language" || jsIncludes agentId "language" then
    "Language: English, Style: Technical/Academic, Complexity: Advanced, Readability: Graduate level"
  else if jsIncludes lowerTask "metadata" || jsIncludes agentId "metadata" then
    "Metadata: Author=Dr. Smith, Date=2024-01-15, Version=1.2, Keywords=[AI, automation, platform]"
  else if jsIncludes lowerTask "validate" || jsIncludes lowerTask "validator" then
    "✅ Content validation: Structure complete, all sections present, formatting consistent"
  else if jsIncludes lowerTask "reference" || jsIncludes agentId "reference" then
    "📚 References verified: 23 citations checked, 2 broken links found and flagged"
  else if jsIncludes lowerTask "grammar" || jsIncludes agentId "grammar" then
    "📝 Grammar check: 3 minor issues found, suggestions provided for clarity improvements"
  else if (jsIncludes lowerTask "technical" && jsIncludes lowerTask "review") || jsIncludes agentId "technical" then
    "🔍 Technical review: Content accurate, methodology sound, conclusions well-supported"
  else if (jsIncludes lowerTask "style" && jsIncludes lowerTask "review") || jsIncludes agentId "style" then
    "✍️ Style review: Writing consistent, terminology standardized, minor formatting adjustments needed"
  else if (jsIncludes lowerTask "report" && jsIncludes agentId "generator") then
    "📄 Analysis Report Generated: Comprehensive 12-page document with findings, recommendations, and appendices"
  else if (jsIncludes lowerTask "summary" && jsIncludes agentId "creator") then
    "📋 Executive Summary: Key findings distilled into 2-page executive overview with actionable insights"
  else
    "Agent " ++ (jsSplitLast agentId '-') ++ " completed task: " ++ task

/-- spawnAgent(agentId, task, options): rejects a duplicate id before any
mutation; otherwise stores the agent as idle, creates its empty inbox, emits
the spawned event and schedules the simulated-work completion callback. -/
def spawnAgent (st : CoordState) (agentId task : String) :
    CoordState × Except String Agent :=
  if (alGet st.agents agentId).isSome then
    (st, Except.error ("Agent " ++ agentId ++ " already exists"))
  else
    let agent : Agent := { id := agentId, task := task, status := "idle", results := none }
    ({ st with
        agents := alSet st.agents agentId agent
        messageQueues := alSet st.messageQueues agentId []
        events := st.events ++ [Event.agentSpawned agentId task]
        pending := st.pending ++
          [(agentId, { completed := true, output := generateRealisticResult agentId task })] },
     Except.ok agent)

/-- sendMessage(fromAgent, toAgent, message): fails when the recipient has no
inbox; the sender is not validated. -/
def sendMessage (st : CoordState) (fromAgent toAgent : String)
    (message : Option AgentResult) : CoordState × Except String Unit :=
  match alGet st.messageQueues toAgent with
  | none => (st, Except.error ("Agent " ++ toAgent ++ " not found"))
  | some queue =>
    let fullMessage : Message :=
      { fromAgent := fromAgent, toAgent := toAgent, message := message }
    ({ st with
        messageQueues := alSet st.messageQueues toAgent (queue ++ [fullMessage])
        events := st.events ++ [Event.messageSent fullMessage] },
     Except.ok ())

/-- getMessages(agentId): the inbox, or the empty list when there is none. -/
def getMessages (st : CoordState) (agentId : String) : List Message :=
  (alGet st.messageQueues agentId).getD []

/-- getAgentStatus(agentId): the agent record, or a not-found error. -/
def getAgentStatus (st : CoordState) (agentId : String) : Except String Agent :=
  match alGet st.agents agentId with
  | none => Except.error ("Agent " ++ agentId ++ " not found")
  | some agent => Except.ok agent

/-- completeAgent(agentId, results): silently a no-op when the agent is gone,
otherwise marks it completed, stores the results and emits the event. -/
def completeAgent (st : CoordState) (agentId : String) (results : AgentResult) :
    CoordState :=
  match alGet st.agents agentId with
  | none => st
  | some agent =>
    { st with
        agents := alSet st.agents agentId
          { agent with status := "completed", results := some results }
        events := st.events ++ [Event.agentCompleted agentId results] }

/-- The event loop firing every pending simulated-work timer, in scheduling
order; each timer body is a completeAgent call. -/
def fireCompletions (st : CoordState) : CoordState :=
  st.pending.foldl (fun s p => completeAgent s p.1 p.2) { st with pending := [] }

/-- terminateAgent(agentId): removes the agent and its inbox and emits the
terminated event only when the agent exists; otherwise does nothing. -/
def terminateAgent (st : CoordState) (agentId : String) : CoordState :=
  if (alGet st.agents agentId).isSome then
    { st with
        agents := alDelete st.agents agentId
        messageQueues := alDelete st.messageQueues agentId
        events := st.events ++ [Event.agentTerminated agentId] }
  else st

/-- getStatistics(): point-in-time counts over the agents map. -/
structure Statistics where
  totalAgents : Nat
  activeAgents : Nat
  completedAgents : Nat
deriving DecidableEq

/-- getStatistics(): total, active and completed counts. -/
def getStatistics (st : CoordState) : Statistics :=
  { totalAgents := st.agents.length
    activeAgents := (st.agents.filter (fun p => p.2.status == "active")).length
    completedAgents := (st.agents.filter (fun p => p.2.status == "completed")).length }

/-- One entry of config.tasks: agent name, task text and the optional
passResults flag (absent in JS meaning falsy, modelled as false). -/
structure WTask where
  agent : String
  task : String
  passResults : Bool
deriving DecidableEq

/-- A workflow record as built in createWorkflow (created / startTime /
endTime omitted; config is reduced to its only read field, tasks). -/
structure Workflow where
  id : String
  type : String
  status : String
  config : Option (List WTask)
  tasks : List WTask
  agents : List String
  results : List (String × Option AgentResult)
  error : Option String
deriving DecidableEq

/-- State of one SimpleFramework attached to its coordinator: the workflows
map plus the framework-level event log. -/
structure FrameworkState where
  coord : CoordState
  workflows : List (String × Workflow)
  events : List Event
deriving DecidableEq

/-- A freshly constructed framework over a fresh coordinator. -/
def initialFramework : FrameworkState :=
  { coord := initialCoord, workflows := [], events := [] }

/-- Replaces the coordinator component of a framework state. -/
def withCoord (fs : FrameworkState) (c : CoordState) : FrameworkState :=
  { fs with coord := c }

/-- Number of polls of the default 30000 ms timeout at the 100 ms interval. -/
def waitFuel : Nat := 300

/-- waitForAgent(agentId, timeout): polls getAgentStatus until the agent is
completed (success) or failed (error), or the polls are exhausted (timeout
error). The fuel argument is the number of remaining polls; the 100 ms sleep
between polls is where the event loop fires pending completion timers, hence
the fireCompletions on the recursive call. A thrown getAgentStatus propagates.
Like every stateful operation here, the post-call state is returned next to
the result because a JS throw does not roll state back. -/
def waitForAgent (st : CoordState) (agentId : String) :
    Nat → CoordState × Except String Bool
  | 0 => (st, Except.error ("Agent " ++ agentId ++ " timed out"))
  | fuel + 1 =>
    match getAgentStatus st agentId with
    | Except.error e => (st, Except.error e)
    | Except.ok status =>
      if status.status = "completed" then (st, Except.ok true)
      else if status.status = "failed" then
        (st, Except.error ("Agent " ++ agentId ++ " failed"))
      else waitForAgent (fireCompletions st) agentId fuel

/-- createWorkflow(workflowId, type, config): builds the record, stores it
(Map.set, silently replacing any record under the same id) and returns it.
No validation of any kind happens here. -/
def createWorkflow (fs : FrameworkState) (workflowId type : String)
    (config : Option (List WTask)) : FrameworkState × Workflow :=
  let workflow : Workflow :=
    { id := workflowId
      type := type
      status := "initialized"
      config := config
      tasks := config.getD []
      agents := []
      results := []
      error := none }
  ({ fs with workflows := alSet fs.workflows workflowId workflow }, workflow)

/-- The loop body of executeSequential over the remaining tasks: spawn the
task agent, record it, wait for completion, record its results under the
task agent name and, when this is not the last task and passResults is set,
send the results to the (not yet spawned) next task agent id. Any error stops
the loop and propagates with the state reached so far. -/
def executeSequentialGo (coord : CoordState) (wf : Workflow) :
    List WTask → CoordState × Workflow × Except String Unit
  | [] => (coord, wf, Except.ok ())
  | task :: rest =>
    let agentId := wf.id ++ "-" ++ task.agent
    match spawnAgent coord agentId task.task with
    | (c1, Except.error e) => (c1, wf, Except.error e)
    | (c1, Except.ok _) =>
      let wf1 := { wf with agents := wf.agents ++ [agentId] }
      match waitForAgent c1 agentId waitFuel with
      | (c2, Except.error e) => (c2, wf1, Except.error e)
      | (c2, Except.ok _) =>
        match getAgentStatus c2 agentId with
        | Except.error e => (c2, wf1, Except.error e)
        | Except.ok status =>
          let wf2 := { wf1 with results := alSet wf1.results task.agent status.results }
          match rest, task.passResults with
          | next :: _, true =>
            let nextAgentId := wf2.id ++ "-" ++ next.agent
            match sendMessage c2 agentId nextAgentId status.results with
            | (c3, Except.error e) => (c3, wf2, Except.error e)
            | (c3, Except.ok _) => executeSequentialGo c3 wf2 rest
          | _, _ => executeSequentialGo c2 wf2 rest

/-- Fan-out phase of executeParallel: under the JS event loop the map over
tasks runs every spawn synchronously in declaration order, and each closure
then appends its agent id in the same order; a failed spawn rejects that
closure but the later closures still spawn, and Promise.all surfaces the
first rejection, which is the lowest-index spawn error. -/
def parSpawnAll (coord : CoordState) (wf : Workflow) :
    List WTask → CoordState × Workflow × Option String
  | [] => (coord, wf, none)
  | task :: rest =>
    let agentId := wf.id ++ "-" ++ task.agent
    match spawnAgent coord agentId task.task with
    | (c1, Except.error e) =>
      let r := parSpawnAll c1 wf rest
      (r.1, r.2.1, some e)
    | (c1, Except.ok _) =>
      parSpawnAll c1 { wf with agents := wf.agents ++ [agentId] } rest

/-- Fan-in phase of executeParallel: every closure waits on its agent and
reads its status; Promise.all returns the pairs in task-declaration order. -/
def parWaitAll (coord : CoordState) (wfId : String) :
    List WTask → CoordState × Except String (List (String × Option AgentResult))
  | [] => (coord, Except.ok [])
  | task :: rest =>
    let agentId := wfId ++ "-" ++ task.agent
    match waitForAgent coord agentId waitFuel with
    | (c1, Except.error e) => (c1, Except.error e)
    | (c1, Except.ok _) =>
      match getAgentStatus c1 agentId with
      | Except.error e => (c1, Except.error e)
      | Except.ok status =>
        match parWaitAll c1 wfId rest with
        | (c2, Except.error e) => (c2, Except.error e)
        | (c2, Except.ok pairs) => (c2, Except.ok ((task.agent, status.results) :: pairs))

/-- executeParallel(workflow): fan-out, fan-in, then the collected pairs are
written into workflow.results keyed by agent name, in the order Promise.all
returned them. -/
def executeParallel (coord : CoordState) (wf : Workflow) :
    CoordState × Workflow × Except String Unit :=
  match parSpawnAll coord wf wf.tasks with
  | (c1, wf1, some e) => (c1, wf1, Except.error e)
  | (c1, wf1, none) =>
    match parWaitAll c1 wf1.id wf1.tasks with
    | (c2, Except.error e) => (c2, wf1, Except.error e)
    | (c2, Except.ok pairs) =>
      (c2, { wf1 with results := pairs.foldl (fun r p => alSet r p.1 p.2) wf1.results },
       Except.ok ())

/-- The strategy dispatch inside the try block of executeWorkflow. -/
def dispatchStrategy (coord : CoordState) (wf : Workflow) :
    CoordState × Workflow × Except String Unit :=
  if wf.type = "sequential" then executeSequentialGo coord wf wf.tasks
  else if wf.type = "parallel" then executeParallel coord wf
  else (coord, wf, Except.error ("Unknown workflow type: " ++ wf.type))

/-- executeWorkflow(workflowId): rejects an unknown id, marks the workflow
running, dispatches on its type, and on success marks it completed and emits
the completed event, while any error marks it failed, stores the error
message, emits the failed event and is re-raised to the caller. -/
def executeWorkflow (fs : FrameworkState) (workflowId : String) :
    FrameworkState × Except String Workflow :=
  match alGet fs.workflows workflowId with
  | none => (fs, Except.error ("Workflow " ++ workflowId ++ " not found"))
  | some workflow =>
    let wfR := { workflow with status := "running" }
    match dispatchStrategy fs.coord wfR with
    | (coord, wf, Except.ok _) =>
      let wfDone := { wf with status := "completed" }
      ({ coord := coord
         workflows := alSet fs.workflows workflowId wfDone
         events := fs.events ++ [Event.workflowCompleted workflowId] },
       Except.ok wfDone)
    | (coord, wf, Except.error e) =>
      let wfFail := { wf with status := "failed", error := some e }
      ({ coord := coord
         workflows := alSet fs.workflows workflowId wfFail
         events := fs.events ++ [Event.workflowFailed workflowId e] },
       Except.error e)

/-- The states an attached coordinator-plus-framework pair can reach from
construction through its public operations and the event loop firing the
scheduled completion timers. -/
inductive Reachable : FrameworkState → Prop where
  | start : Reachable initialFramework
  | spawn (fs : FrameworkState) (id task : String) :
      Reachable fs → Reachable (withCoord fs (spawnAgent fs.coord id task).1)
  | send (fs : FrameworkState) (f t : String) (m : Option AgentResult) :
      Reachable fs → Reachable (withCoord fs (sendMessage fs.coord f t m).1)
  | terminate (fs : FrameworkState) (id : String) :
      Reachable fs → Reachable (withCoord fs (terminateAgent fs.coord id))
  | complete (fs : FrameworkState) (id : String) (r : AgentResult) :
      Reachable fs → Reachable (withCoord fs (completeAgent fs.coord id r))
  | tick (fs : FrameworkState) :
      Reachable fs → Reachable (withCoord fs (fireCompletions fs.coord))
  | wait (fs : FrameworkState) (id : String) (fuel : Nat) :
      Reachable fs → Reachable (withCoord fs (waitForAgent fs.coord id fuel).1)
  | create (fs : FrameworkState) (id type : String) (cfg : Option (List WTask)) :
      Reachable fs → Reachable (createWorkflow fs id type cfg).1
  | execute (fs : FrameworkState) (id : String) :
      Reachable fs → Reachable (executeWorkflow fs id).1

/-- Folding a list of completion callbacks over a state, in order; the body
of fireCompletions generalized to an arbitrary start state and timer list. -/
def runPending (st : CoordState) (ps : List (String × AgentResult)) : CoordState :=
  ps.foldl (fun s p => completeAgent s p.1 p.2) st

/-- Every agent in the map is idle or completed: the only two statuses any
code path of the coordinator ever assigns. -/
def statusOK (ags : List (String × Agent)) : Prop :=
  ∀ p ∈ ags, p.2.status = "idle" ∨ p.2.status = "completed"

/-- Every agent present in the first state is still present in the second:
no agent record was removed between them. -/
def keepAgents (s t : CoordState) : Prop :=
  ∀ k, (alGet s.agents k).isSome → (alGet t.agents k).isSome


/-- alSet updates exactly the given key. -/
theorem alGet_alSet {α : Type} (m : List (String × α)) (k k2 : String) (v : α) :
    alGet (alSet m k v) k2 = if k = k2 then some v else alGet m k2 := by
  induction m with
  | nil => rfl
  | cons p rest ih =>
    obtain ⟨k1, v1⟩ := p
    by_cases h1 : k1 = k
    · by_cases h2 : k1 = k2
      · have h3 : k = k2 := h1.symm.trans h2
        simp [alSet, alGet, h1, h2, h3]
      · have h3 : ¬k = k2 := fun he => h2 (h1.trans he)
        simp [alSet, alGet, h1, h2, h3]
    · by_cases h2 : k1 = k2
      · have h3 : ¬k = k2 := fun he => h1 (h2.trans he.symm)
        simp only [alSet, if_neg h1, alGet, if_pos h2, if_neg h3]
      · simp [alSet, alGet, h1, h2, ih]

/-- alSet at any key keeps presence at every key already present. -/
theorem alGet_alSet_isSome {α : Type} (m : List (String × α)) (k k2 : String) (v : α)
    (h : (alGet m k2).isSome = true) : (alGet (alSet m k v) k2).isSome = true := by
  rw [alGet_alSet]
  by_cases hk : k = k2 <;> simp [hk, h]

/-- alDelete removes exactly the given key. -/
theorem alGet_alDelete {α : Type} (m : List (String × α)) (k k2 : String) :
    alGet (alDelete m k) k2 = if k = k2 then none else alGet m k2 := by
  induction m with
  | nil =>
    by_cases h : k = k2 <;> simp [alDelete, alGet, h]
  | cons p rest ih =>
    obtain ⟨k1, v1⟩ := p
    by_cases h1 : k1 = k
    · by_cases h2 : k1 = k2
      · have h3 : k = k2 := h1.symm.trans h2
        subst h3
        simp [alDelete, alGet, h1, ih]
      · have h3 : ¬k = k2 := fun he => h2 (h1.trans he)
        simp [alDelete, alGet, h1, h2, h3, ih]
    · by_cases h2 : k1 = k2
      · have h3 : ¬k = k2 := fun he => h1 (h2.trans he.symm)
        simp only [alDelete, if_neg h1, alGet, if_pos h2, if_neg h3]
      · simp [alDelete, alGet, h1, h2, ih]

/-- Every entry of alSet m k v carries the new value or was an old entry. -/
theorem mem_alSet {α : Type} (m : List (String × α)) (k : String) (v : α)
    (p : String × α) (hp : p ∈ alSet m k v) : p.2 = v ∨ p ∈ m := by
  induction m with
  | nil =>
    simp only [alSet, List.mem_singleton] at hp
    subst hp
    exact Or.inl rfl
  | cons q rest ih =>
    obtain ⟨k1, v1⟩ := q
    by_cases h1 : k1 = k
    · simp only [alSet, if_pos h1, List.mem_cons] at hp
      rcases hp with hp | hp
      · subst hp
        exact Or.inl rfl
      · exact Or.inr (List.mem_cons_of_mem _ hp)
    · simp only [alSet, if_neg h1, List.mem_cons] at hp
      rcases hp with hp | hp
      · subst hp
        exact Or.inr (List.mem_cons_self _ _)
      · rcases ih hp with h | h
        · exact Or.inl h
        · exact Or.inr (List.mem_cons_of_mem _ h)

/-- Every entry surviving alDelete was an entry before. -/
theorem mem_alDelete {α : Type} (m : List (String × α)) (k : String)
    (p : String × α) (hp : p ∈ alDelete m k) : p ∈ m := by
  induction m with
  | nil => simp [alDelete] at hp
  | cons q rest ih =>
    obtain ⟨k1, v1⟩ := q
    by_cases h1 : k1 = k
    · simp only [alDelete, if_pos h1] at hp
      exact List.mem_cons_of_mem _ (ih hp)
    · simp only [alDelete, if_neg h1, List.mem_cons] at hp
      rcases hp with hp | hp
      · subst hp
        exact List.mem_cons_self _ _
      · exact List.mem_cons_of_mem _ (ih hp)

/-- completeAgent never touches the pending timer queue. -/
theorem completeAgent_pending (st : CoordState) (id : String) (r : AgentResult) :
    (completeAgent st id r).pending = st.pending := by
  cases hid : alGet st.agents id <;> simp [completeAgent, hid]

/-- completeAgent never touches the message queues. -/
theorem completeAgent_queues (st : CoordState) (id : String) (r : AgentResult) :
    (completeAgent st id r).messageQueues = st.messageQueues := by
  cases hid : alGet st.agents id <;> simp [completeAgent, hid]

/-- completeAgent leaves every other agent entry unchanged. -/
theorem completeAgent_get_other (st : CoordState) (id : String) (r : AgentResult)
    (k : String) (h : ¬id = k) :
    alGet (completeAgent st id r).agents k = alGet st.agents k := by
  cases hid : alGet st.agents id with
  | none => simp [completeAgent, hid]
  | some a => simp [completeAgent, hid, alGet_alSet, h]

/-- completeAgent on a missing agent is a no-op (the if (agent) guard). -/
theorem completeAgent_get_none (st : CoordState) (id : String) (r : AgentResult)
    (h : alGet st.agents id = none) : completeAgent st id r = st := by
  simp [completeAgent, h]

/-- completeAgent marks a present agent completed with the given results. -/
theorem completeAgent_get_self (st : CoordState) (id : String) (r : AgentResult)
    (a : Agent) (h : alGet st.agents id = some a) :
    alGet (completeAgent st id r).agents id =
      some { a with status := "completed", results := some r } := by
  simp [completeAgent, h, alGet_alSet]

/-- completeAgent removes no agent. -/
theorem completeAgent_isSome (st : CoordState) (id : String) (r : AgentResult)
    (k : String) (h : (alGet st.agents k).isSome = true) :
    (alGet (completeAgent st id r).agents k).isSome = true := by
  cases hid : alGet st.agents id with
  | none => simpa [completeAgent, hid] using h
  | some a =>
    simp only [completeAgent]
    simp only [hid]
    exact alGet_alSet_isSome _ _ _ _ h

/-- completeAgent keeps the identity fields of every agent entry. -/
theorem completeAgent_fields (st : CoordState) (id : String) (r : AgentResult)
    (k : String) (a : Agent) (h : alGet st.agents k = some a) :
    ∃ a2, alGet (completeAgent st id r).agents k = some a2 ∧
      a2.id = a.id ∧ a2.task = a.task := by
  by_cases hk : id = k
  · subst hk
    exact ⟨_, completeAgent_get_self st id r a h, rfl, rfl⟩
  · exact ⟨a, by rw [completeAgent_get_other st id r k hk, h], rfl, rfl⟩

/-- completeAgent assigns only the completed status. -/
theorem completeAgent_statusOK (st : CoordState) (id : String) (r : AgentResult)
    (h : statusOK st.agents) : statusOK (completeAgent st id r).agents := by
  cases hid : alGet st.agents id with
  | none => simpa [completeAgent, hid] using h
  | some a =>
    intro p hp
    simp only [completeAgent, hid] at hp
    rcases mem_alSet _ _ _ _ hp with hv | hv
    · right
      rw [hv]
    · exact h p hv

/-- Unfolding runPending over an appended timer list. -/
theorem runPending_append (st : CoordState) (ps qs : List (String × AgentResult)) :
    runPending st (ps ++ qs) = runPending (runPending st ps) qs := by
  simp [runPending, List.foldl_append]

/-- runPending never touches the pending field of its start state. -/
theorem runPending_pending (ps : List (String × AgentResult)) :
    ∀ st : CoordState, (runPending st ps).pending = st.pending := by
  induction ps with
  | nil => intro st; rfl
  | cons p rest ih =>
    intro st
    simp only [runPending, List.foldl_cons]
    rw [show List.foldl (fun s p => completeAgent s p.1 p.2) (completeAgent st p.1 p.2) rest =
      runPending (completeAgent st p.1 p.2) rest from rfl, ih, completeAgent_pending]

/-- runPending never touches the message queues. -/
theorem runPending_queues (ps : List (String × AgentResult)) :
    ∀ st : CoordState, (runPending st ps).messageQueues = st.messageQueues := by
  induction ps with
  | nil => intro st; rfl
  | cons p rest ih =>
    intro st
    simp only [runPending, List.foldl_cons]
    rw [show List.foldl (fun s p => completeAgent s p.1 p.2) (completeAgent st p.1 p.2) rest =
      runPending (completeAgent st p.1 p.2) rest from rfl, ih, completeAgent_queues]

/-- A key no timer in the list refers to keeps its agent entry unchanged. -/
theorem runPending_get_not_mem (ps : List (String × AgentResult)) (k : String)
    (h : ∀ p ∈ ps, ¬p.1 = k) :
    ∀ st : CoordState, alGet (runPending st ps).agents k = alGet st.agents k := by
  induction ps with
  | nil => intro st; rfl
  | cons p rest ih =>
    intro st
    simp only [runPending, List.foldl_cons]
    rw [show List.foldl (fun s p => completeAgent s p.1 p.2) (completeAgent st p.1 p.2) rest =
      runPending (completeAgent st p.1 p.2) rest from rfl]
    rw [ih (fun q hq => h q (List.mem_cons_of_mem _ hq))]
    exact completeAgent_get_other st p.1 p.2 k (h p (List.mem_cons_self _ _))

/-- runPending removes no agent. -/
theorem runPending_isSome (ps : List (String × AgentResult)) (k : String) :
    ∀ st : CoordState, (alGet st.agents k).isSome = true →
      (alGet (runPending st ps).agents k).isSome = true := by
  induction ps with
  | nil => intro st h; exact h
  | cons p rest ih =>
    intro st h
    exact ih (completeAgent st p.1 p.2) (completeAgent_isSome st p.1 p.2 k h)

/-- runPending keeps the identity fields of every agent entry. -/
theorem runPending_fields (ps : List (String × AgentResult)) (k : String) :
    ∀ (st : CoordState) (a : Agent), alGet st.agents k = some a →
      ∃ a2, alGet (runPending st ps).agents k = some a2 ∧
        a2.id = a.id ∧ a2.task = a.task := by
  induction ps with
  | nil => intro st a h; exact ⟨a, h, rfl, rfl⟩
  | cons p rest ih =>
    intro st a h
    obtain ⟨a1, h1, hid1, ht1⟩ := completeAgent_fields st p.1 p.2 k a h
    obtain ⟨a2, h2, hid2, ht2⟩ := ih (completeAgent st p.1 p.2) a1 h1
    exact ⟨a2, h2, hid2.trans hid1, ht2.trans ht1⟩

/-- runPending assigns only the completed status. -/
theorem runPending_statusOK (ps : List (String × AgentResult)) :
    ∀ st : CoordState, statusOK st.agents → statusOK (runPending st ps).agents := by
  induction ps with
  | nil => intro st h; exact h
  | cons p rest ih =>
    intro st h
    exact ih (completeAgent st p.1 p.2) (completeAgent_statusOK st p.1 p.2 h)

/-- fireCompletions written through runPending. -/
theorem fireCompletions_eq (st : CoordState) :
    fireCompletions st = runPending { st with pending := [] } st.pending := rfl

/-- After the event loop fired the timers, none are left. -/
theorem fireCompletions_pending (st : CoordState) :
    (fireCompletions st).pending = [] := by
  rw [fireCompletions_eq, runPending_pending]

/-- fireCompletions never touches the message queues. -/
theorem fireCompletions_queues (st : CoordState) :
    (fireCompletions st).messageQueues = st.messageQueues := by
  rw [fireCompletions_eq, runPending_queues]

/-- fireCompletions removes no agent. -/
theorem fireCompletions_isSome (st : CoordState) (k : String)
    (h : (alGet st.agents k).isSome = true) :
    (alGet (fireCompletions st).agents k).isSome = true := by
  rw [fireCompletions_eq]
  exact runPending_isSome st.pending k _ h

/-- An agent no pending timer refers to is untouched by fireCompletions. -/
theorem fireCompletions_get_not_mem (st : CoordState) (k : String)
    (h : ∀ p ∈ st.pending, ¬p.1 = k) :
    alGet (fireCompletions st).agents k = alGet st.agents k := by
  rw [fireCompletions_eq]
  exact runPending_get_not_mem st.pending k h _

/-- fireCompletions assigns only the completed status. -/
theorem fireCompletions_statusOK (st : CoordState) (h : statusOK st.agents) :
    statusOK (fireCompletions st).agents := by
  rw [fireCompletions_eq]
  exact runPending_statusOK st.pending _ h

/-- keepAgents is reflexive. -/
theorem keepAgents_refl (st : CoordState) : keepAgents st st :=
  fun _ h => h

/-- keepAgents composes. -/
theorem keepAgents_trans {s t u : CoordState}
    (h1 : keepAgents s t) (h2 : keepAgents t u) : keepAgents s u :=
  fun k hk => h2 k (h1 k hk)

/-- The duplicate-id branch of spawnAgent: an error before any mutation. -/
theorem spawnAgent_dup (st : CoordState) (id task : String)
    (h : (alGet st.agents id).isSome = true) :
    spawnAgent st id task =
      (st, Except.error ("Agent " ++ id ++ " already exists")) := by
  simp [spawnAgent, h]

/-- The success branch of spawnAgent, spelled out. -/
theorem spawnAgent_ok (st : CoordState) (id task : String)
    (h : alGet st.agents id = none) :
    spawnAgent st id task =
      ({ agents := alSet st.agents id { id := id, task := task, status := "idle", results := none }
         messageQueues := alSet st.messageQueues id []
         pending := st.pending ++
           [(id, { completed := true, output := generateRealisticResult id task })]
         events := st.events ++ [Event.agentSpawned id task] },
       Except.ok { id := id, task := task, status := "idle", results := none }) := by
  simp [spawnAgent, h]

/-- spawnAgent removes no agent in either branch. -/
theorem spawnAgent_keep (st : CoordState) (id task : String) :
    keepAgents st (spawnAgent st id task).1 := by
  cases h : alGet st.agents id with
  | none =>
    rw [spawnAgent_ok st id task h]
    intro k hk
    exact alGet_alSet_isSome _ _ _ _ hk
  | some a =>
    rw [spawnAgent_dup st id task (by rw [h]; rfl)]
    exact keepAgents_refl st

/-- spawnAgent assigns only the idle status. -/
theorem spawnAgent_statusOK (st : CoordState) (id task : String)
    (h : statusOK st.agents) : statusOK (spawnAgent st id task).1.agents := by
  cases hid : alGet st.agents id with
  | none =>
    rw [spawnAgent_ok st id task hid]
    intro p hp
    rcases mem_alSet _ _ _ _ hp with hv | hv
    · left
      rw [hv]
    · exact h p hv
  | some a =>
    rw [spawnAgent_dup st id task (by rw [hid]; rfl)]
    exact h

/-- sendMessage never touches the agents map. -/
theorem sendMessage_agents (st : CoordState) (f t : String) (m : Option AgentResult) :
    (sendMessage st f t m).1.agents = st.agents := by
  cases h : alGet st.messageQueues t <;> simp [sendMessage, h]

/-- sendMessage never touches the pending timers. -/
theorem sendMessage_pending (st : CoordState) (f t : String) (m : Option AgentResult) :
    (sendMessage st f t m).1.pending = st.pending := by
  cases h : alGet st.messageQueues t <;> simp [sendMessage, h]

/-- sendMessage removes no agent. -/
theorem sendMessage_keep (st : CoordState) (f t : String) (m : Option AgentResult) :
    keepAgents st (sendMessage st f t m).1 := by
  intro k hk
  rw [sendMessage_agents]
  exact hk

/-- sendMessage assigns no status. -/
theorem sendMessage_statusOK (st : CoordState) (f t : String) (m : Option AgentResult)
    (h : statusOK st.agents) : statusOK (sendMessage st f t m).1.agents := by
  rw [sendMessage_agents]
  exact h

/-- terminateAgent keeps only old entries. -/
theorem terminateAgent_statusOK (st : CoordState) (id : String)
    (h : statusOK st.agents) : statusOK (terminateAgent st id).agents := by
  by_cases hid : (alGet st.agents id).isSome = true
  · intro p hp
    simp only [terminateAgent, hid, if_true] at hp
    exact h p (mem_alDelete _ _ _ hp)
  · simpa [terminateAgent, hid] using h

/-- The getAgentStatus success case is exactly map presence. -/
theorem getAgentStatus_ok (st : CoordState) (id : String) (a : Agent)
    (h : alGet st.agents id = some a) :
    getAgentStatus st id = Except.ok a := by
  simp [getAgentStatus, h]

/-- The getAgentStatus failure case. -/
theorem getAgentStatus_err (st : CoordState) (id : String)
    (h : alGet st.agents id = none) :
    getAgentStatus st id = Except.error ("Agent " ++ id ++ " not found") := by
  simp [getAgentStatus, h]

/-- waitForAgent only fires timers: it removes no agent. -/
theorem waitForAgent_keep (id : String) :
    ∀ (fuel : Nat) (st : CoordState), keepAgents st (waitForAgent st id fuel).1 := by
  intro fuel
  induction fuel with
  | zero => intro st; exact keepAgents_refl st
  | succ n ih =>
    intro st
    cases hg : getAgentStatus st id with
    | error e =>
      simp only [waitForAgent, hg]
      exact keepAgents_refl st
    | ok a =>
      simp only [waitForAgent, hg]
      by_cases hc : a.status = "completed"
      · simp only [hc, if_true]
        exact keepAgents_refl st
      · by_cases hf : a.status = "failed"
        · simp only [hc, if_false, hf, if_true]
          exact keepAgents_refl st
        · simp only [hc, if_false, hf]
          exact keepAgents_trans
            (fun k hk => fireCompletions_isSome st k hk) (ih (fireCompletions st))

/-- waitForAgent assigns only statuses its callees assign. -/
theorem waitForAgent_statusOK (id : String) :
    ∀ (fuel : Nat) (st : CoordState), statusOK st.agents →
      statusOK (waitForAgent st id fuel).1.agents := by
  intro fuel
  induction fuel with
  | zero => intro st h; exact h
  | succ n ih =>
    intro st h
    cases hg : getAgentStatus st id with
    | error e =>
      simpa only [waitForAgent, hg] using h
    | ok a =>
      simp only [waitForAgent, hg]
      by_cases hc : a.status = "completed"
      · simpa only [hc, if_true] using h
      · by_cases hf : a.status = "failed"
        · simpa only [hc, if_false, hf, if_true] using h
        · simp only [hc, if_false, hf]
          exact ih (fireCompletions st) (fireCompletions_statusOK st h)

/-- Inversion of a successful spawnAgent call. -/
theorem spawnAgent_ok_inv (st : CoordState) (id task : String) (c1 : CoordState) (a : Agent)
    (h : spawnAgent st id task = (c1, Except.ok a)) :
    alGet st.agents id = none ∧
    c1 = { agents := alSet st.agents id { id := id, task := task, status := "idle", results := none }
           messageQueues := alSet st.messageQueues id []
           pending := st.pending ++
             [(id, { completed := true, output := generateRealisticResult id task })]
           events := st.events ++ [Event.agentSpawned id task] } ∧
    a = { id := id, task := task, status := "idle", results := none } := by
  cases hid : alGet st.agents id with
  | some b =>
    rw [spawnAgent_dup st id task (by rw [hid]; rfl)] at h
    exact absurd (congrArg Prod.snd h) (by simp)
  | none =>
    rw [spawnAgent_ok st id task hid] at h
    obtain ⟨h1, h2⟩ := Prod.mk.injEq .. |>.mp h
    exact ⟨rfl, h1.symm, (Except.ok.injEq .. |>.mp h2).symm⟩

/-- An agent spawned successfully is present afterwards. -/
theorem spawnAgent_ok_present (st : CoordState) (id task : String) (c1 : CoordState) (a : Agent)
    (h : spawnAgent st id task = (c1, Except.ok a)) :
    (alGet c1.agents id).isSome = true := by
  obtain ⟨-, hc, -⟩ := spawnAgent_ok_inv st id task c1 a h
  rw [hc]
  simp [alGet_alSet]

/-- Inversion of a successful getAgentStatus call. -/
theorem getAgentStatus_ok_inv (st : CoordState) (id : String) (a : Agent)
    (h : getAgentStatus st id = Except.ok a) : alGet st.agents id = some a := by
  cases hid : alGet st.agents id with
  | none =>
    rw [getAgentStatus_err st id hid] at h
    exact absurd h (by simp)
  | some b =>
    rw [getAgentStatus_ok st id b hid] at h
    rw [(Except.ok.injEq .. |>.mp h)]

/-- Combined safety facts about the sequential execution loop: it removes no
agent, it assigns only idle or completed statuses, and every agent id it adds
to the workflow record is present in the final coordinator state. -/
theorem seqGo_spec (ts : List WTask) :
    ∀ (coord : CoordState) (wf : Workflow),
    keepAgents coord (executeSequentialGo coord wf ts).1 ∧
    (statusOK coord.agents → statusOK (executeSequentialGo coord wf ts).1.agents) ∧
    (∀ a ∈ (executeSequentialGo coord wf ts).2.1.agents,
       a ∈ wf.agents ∨ (alGet (executeSequentialGo coord wf ts).1.agents a).isSome = true) := by
  induction ts with
  | nil =>
    intro coord wf
    exact ⟨keepAgents_refl coord, fun h => h, fun a ha => Or.inl ha⟩
  | cons task rest ih =>
    intro coord wf
    cases h1 : spawnAgent coord (wf.id ++ "-" ++ task.agent) task.task with
    | mk c1 r1 =>
      cases r1 with
      | error e =>
        simp only [executeSequentialGo, h1]
        refine ⟨?_, ?_, fun a ha => Or.inl ha⟩
        · have := spawnAgent_keep coord (wf.id ++ "-" ++ task.agent) task.task
          rwa [h1] at this
        · intro h
          have := spawnAgent_statusOK coord (wf.id ++ "-" ++ task.agent) task.task h
          rwa [h1] at this
      | ok a0 =>
        have hkeep1 : keepAgents coord c1 := by
          have := spawnAgent_keep coord (wf.id ++ "-" ++ task.agent) task.task
          rwa [h1] at this
        have hok1 : statusOK coord.agents → statusOK c1.agents := by
          intro h
          have := spawnAgent_statusOK coord (wf.id ++ "-" ++ task.agent) task.task h
          rwa [h1] at this
        have hpres1 : (alGet c1.agents (wf.id ++ "-" ++ task.agent)).isSome = true :=
          spawnAgent_ok_present coord _ task.task c1 a0 h1
        cases h2 : waitForAgent c1 (wf.id ++ "-" ++ task.agent) waitFuel with
        | mk c2 r2 =>
          have hkeep2 : keepAgents c1 c2 := by
            have := waitForAgent_keep (wf.id ++ "-" ++ task.agent) waitFuel c1
            rwa [h2] at this
          have hok2 : statusOK c1.agents → statusOK c2.agents := by
            intro h
            have := waitForAgent_statusOK (wf.id ++ "-" ++ task.agent) waitFuel c1 h
            rwa [h2] at this
          cases r2 with
          | error e =>
            simp only [executeSequentialGo, h1, h2]
            refine ⟨keepAgents_trans hkeep1 hkeep2, fun h => hok2 (hok1 h), fun a ha => ?_⟩
            simp only [List.mem_append, List.mem_singleton] at ha
            rcases ha with ha | ha
            · exact Or.inl ha
            · subst ha
              exact Or.inr (hkeep2 _ hpres1)
          | ok b =>
            cases h3 : getAgentStatus c2 (wf.id ++ "-" ++ task.agent) with
            | error e =>
              simp only [executeSequentialGo, h1, h2, h3]
              refine ⟨keepAgents_trans hkeep1 hkeep2, fun h => hok2 (hok1 h), fun a ha => ?_⟩
              simp only [List.mem_append, List.mem_singleton] at ha
              rcases ha with ha | ha
              · exact Or.inl ha
              · subst ha
                exact Or.inr (hkeep2 _ hpres1)
            | ok status =>
              cases rest with
              | nil =>
                simp only [executeSequentialGo, h1, h2, h3]
                refine ⟨keepAgents_trans hkeep1 hkeep2, fun h => hok2 (hok1 h), fun a ha => ?_⟩
                simp only [List.mem_append, List.mem_singleton] at ha
                rcases ha with ha | ha
                · exact Or.inl ha
                · subst ha
                  exact Or.inr (hkeep2 _ hpres1)
              | cons next rest2 =>
                cases hpr : task.passResults with
                | false =>
                  simp only [executeSequentialGo, h1, h2, h3, hpr]
                  obtain ⟨ihk, ihs, iha⟩ := ih c2
                    { wf with
                        agents := wf.agents ++ [wf.id ++ "-" ++ task.agent]
                        results := alSet wf.results task.agent status.results }
                  refine ⟨keepAgents_trans hkeep1 (keepAgents_trans hkeep2 ihk),
                          fun h => ihs (hok2 (hok1 h)), fun a ha => ?_⟩
                  rcases iha a ha with ha2 | ha2
                  · simp only [List.mem_append, List.mem_singleton] at ha2
                    rcases ha2 with ha2 | ha2
                    · exact Or.inl ha2
                    · subst ha2
                      exact Or.inr (ihk _ (hkeep2 _ hpres1))
                  · exact Or.inr ha2
                | true =>
                  cases h4 : sendMessage c2 (wf.id ++ "-" ++ task.agent)
                      (wf.id ++ "-" ++ next.agent) status.results with
                  | mk c3 r3 =>
                    have hkeep3 : keepAgents c2 c3 := by
                      have := sendMessage_keep c2 (wf.id ++ "-" ++ task.agent)
                        (wf.id ++ "-" ++ next.agent) status.results
                      rwa [h4] at this
                    have hok3 : statusOK c2.agents → statusOK c3.agents := by
                      intro h
                      have := sendMessage_statusOK c2 (wf.id ++ "-" ++ task.agent)
                        (wf.id ++ "-" ++ next.agent) status.results h
                      rwa [h4] at this
                    cases r3 with
                    | error e =>
                      simp only [executeSequentialGo, h1, h2, h3, hpr, h4]
                      refine ⟨keepAgents_trans hkeep1 (keepAgents_trans hkeep2 hkeep3),
                              fun h => hok3 (hok2 (hok1 h)), fun a ha => ?_⟩
                      simp only [List.mem_append, List.mem_singleton] at ha
                      rcases ha with ha | ha
                      · exact Or.inl ha
                      · subst ha
                        exact Or.inr (hkeep3 _ (hkeep2 _ hpres1))
                    | ok u =>
                      simp only [executeSequentialGo, h1, h2, h3, hpr, h4]
                      obtain ⟨ihk, ihs, iha⟩ := ih c3
                        { wf with
                            agents := wf.agents ++ [wf.id ++ "-" ++ task.agent]
                            results := alSet wf.results task.agent status.results }
                      refine ⟨keepAgents_trans hkeep1
                                (keepAgents_trans hkeep2 (keepAgents_trans hkeep3 ihk)),
                              fun h => ihs (hok3 (hok2 (hok1 h))), fun a ha => ?_⟩
                      rcases iha a ha with ha2 | ha2
                      · simp only [List.mem_append, List.mem_singleton] at ha2
                        rcases ha2 with ha2 | ha2
                        · exact Or.inl ha2
                        · subst ha2
                          exact Or.inr (ihk _ (hkeep3 _ (hkeep2 _ hpres1)))
                      · exact Or.inr ha2

/-- Combined safety facts about the parallel fan-out phase. -/
theorem parSpawnAll_spec (ts : List WTask) :
    ∀ (coord : CoordState) (wf : Workflow),
    keepAgents coord (parSpawnAll coord wf ts).1 ∧
    (statusOK coord.agents → statusOK (parSpawnAll coord wf ts).1.agents) ∧
    (∀ a ∈ (parSpawnAll coord wf ts).2.1.agents,
       a ∈ wf.agents ∨ (alGet (parSpawnAll coord wf ts).1.agents a).isSome = true) := by
  induction ts with
  | nil =>
    intro coord wf
    exact ⟨keepAgents_refl coord, fun h => h, fun a ha => Or.inl ha⟩
  | cons task rest ih =>
    intro coord wf
    cases h1 : spawnAgent coord (wf.id ++ "-" ++ task.agent) task.task with
    | mk c1 r1 =>
      have hkeep1 : keepAgents coord c1 := by
        have := spawnAgent_keep coord (wf.id ++ "-" ++ task.agent) task.task
        rwa [h1] at this
      have hok1 : statusOK coord.agents → statusOK c1.agents := by
        intro h
        have := spawnAgent_statusOK coord (wf.id ++ "-" ++ task.agent) task.task h
        rwa [h1] at this
      cases r1 with
      | error e =>
        simp only [parSpawnAll, h1]
        obtain ⟨ihk, ihs, iha⟩ := ih c1 wf
        exact ⟨keepAgents_trans hkeep1 ihk, fun h => ihs (hok1 h), iha⟩
      | ok a0 =>
        have hpres1 : (alGet c1.agents (wf.id ++ "-" ++ task.agent)).isSome = true :=
          spawnAgent_ok_present coord _ task.task c1 a0 h1
        simp only [parSpawnAll, h1]
        obtain ⟨ihk, ihs, iha⟩ := ih c1
          { wf with agents := wf.agents ++ [wf.id ++ "-" ++ task.agent] }
        refine ⟨keepAgents_trans hkeep1 ihk, fun h => ihs (hok1 h), fun a ha => ?_⟩
        rcases iha a ha with ha2 | ha2
        · simp only [List.mem_append, List.mem_singleton] at ha2
          rcases ha2 with ha2 | ha2
          · exact Or.inl ha2
          · subst ha2
            exact Or.inr (ihk _ hpres1)
        · exact Or.inr ha2

/-- Combined safety facts about the parallel fan-in phase. -/
theorem parWaitAll_spec (ts : List WTask) :
    ∀ (coord : CoordState) (wfId : String),
    keepAgents coord (parWaitAll coord wfId ts).1 ∧
    (statusOK coord.agents → statusOK (parWaitAll coord wfId ts).1.agents) := by
  induction ts with
  | nil =>
    intro coord wfId
    exact ⟨keepAgents_refl coord, fun h => h⟩
  | cons task rest ih =>
    intro coord wfId
    cases h1 : waitForAgent coord (wfId ++ "-" ++ task.agent) waitFuel with
    | mk c1 r1 =>
      have hkeep1 : keepAgents coord c1 := by
        have := waitForAgent_keep (wfId ++ "-" ++ task.agent) waitFuel coord
        rwa [h1] at this
      have hok1 : statusOK coord.agents → statusOK c1.agents := by
        intro h
        have := waitForAgent_statusOK (wfId ++ "-" ++ task.agent) waitFuel coord h
        rwa [h1] at this
      cases r1 with
      | error e =>
        simp only [parWaitAll, h1]
        exact ⟨hkeep1, hok1⟩
      | ok b =>
        cases h2 : getAgentStatus c1 (wfId ++ "-" ++ task.agent) with
        | error e =>
          simp only [parWaitAll, h1, h2]
          exact ⟨hkeep1, hok1⟩
        | ok status =>
          obtain ⟨ihk, ihs⟩ := ih c1 wfId
          cases h3 : parWaitAll c1 wfId rest with
          | mk c2 r2 =>
            have hkeep2 : keepAgents c1 c2 := by rwa [h3] at ihk
            have hok2 : statusOK c1.agents → statusOK c2.agents := by
              intro h
              have := ihs h
              rwa [h3] at this
            cases r2 with
            | error e =>
              simp only [parWaitAll, h1, h2, h3]
              exact ⟨keepAgents_trans hkeep1 hkeep2, fun h => hok2 (hok1 h)⟩
            | ok pairs =>
              simp only [parWaitAll, h1, h2, h3]
              exact ⟨keepAgents_trans hkeep1 hkeep2, fun h => hok2 (hok1 h)⟩

/-- Combined safety facts about executeParallel. -/
theorem executeParallel_spec (coord : CoordState) (wf : Workflow) :
    keepAgents coord (executeParallel coord wf).1 ∧
    (statusOK coord.agents → statusOK (executeParallel coord wf).1.agents) ∧
    (∀ a ∈ (executeParallel coord wf).2.1.agents,
       a ∈ wf.agents ∨ (alGet (executeParallel coord wf).1.agents a).isSome = true) := by
  obtain ⟨hk1, hs1, ha1⟩ := parSpawnAll_spec wf.tasks coord wf
  cases h1 : parSpawnAll coord wf wf.tasks with
  | mk c1 rest1 =>
    obtain ⟨wf1, err1⟩ := rest1
    rw [h1] at hk1 hs1 ha1
    cases err1 with
    | some e =>
      simp only [executeParallel, h1]
      exact ⟨hk1, hs1, ha1⟩
    | none =>
      obtain ⟨hk2, hs2⟩ := parWaitAll_spec wf1.tasks c1 wf1.id
      cases h2 : parWaitAll c1 wf1.id wf1.tasks with
      | mk c2 r2 =>
        rw [h2] at hk2 hs2
        cases r2 with
        | error e =>
          simp only [executeParallel, h1, h2]
          refine ⟨keepAgents_trans hk1 hk2, fun h => hs2 (hs1 h), fun a ha => ?_⟩
          rcases ha1 a ha with ha2 | ha2
          · exact Or.inl ha2
          · exact Or.inr (hk2 _ ha2)
        | ok pairs =>
          simp only [executeParallel, h1, h2]
          refine ⟨keepAgents_trans hk1 hk2, fun h => hs2 (hs1 h), fun a ha => ?_⟩
          rcases ha1 a ha with ha2 | ha2
          · exact Or.inl ha2
          · exact Or.inr (hk2 _ ha2)

/-- Combined safety facts about the strategy dispatch. -/
theorem dispatchStrategy_spec (coord : CoordState) (wf : Workflow) :
    keepAgents coord (dispatchStrategy coord wf).1 ∧
    (statusOK coord.agents → statusOK (dispatchStrategy coord wf).1.agents) ∧
    (∀ a ∈ (dispatchStrategy coord wf).2.1.agents,
       a ∈ wf.agents ∨ (alGet (dispatchStrategy coord wf).1.agents a).isSome = true) := by
  by_cases hseq : wf.type = "sequential"
  · simp only [dispatchStrategy, hseq, if_true]
    exact seqGo_spec wf.tasks coord wf
  · by_cases hpar : wf.type = "parallel"
    · simp only [dispatchStrategy, hseq, if_false, hpar, if_true]
      exact executeParallel_spec coord wf
    · simp only [dispatchStrategy, hseq, if_false, hpar]
      exact ⟨keepAgents_refl coord, fun h => h, fun a ha => Or.inl ha⟩

/-- The timeout message never coincides with the failure message. -/
theorem timeoutMsg_ne_failedMsg (id : String) :
    ¬("Agent " ++ id ++ " timed out") = ("Agent " ++ id ++ " failed") := by
  intro h
  have h2 := congrArg String.length h
  simp only [String.length_append,
    show String.length " timed out" = 10 from rfl,
    show String.length " failed" = 7 from rfl] at h2
  omega

/-- The not-found message never coincides with the failure message. -/
theorem notFoundMsg_ne_failedMsg (id : String) :
    ¬("Agent " ++ id ++ " not found") = ("Agent " ++ id ++ " failed") := by
  intro h
  have h2 := congrArg String.length h
  simp only [String.length_append,
    show String.length " not found" = 10 from rfl,
    show String.length " failed" = 7 from rfl] at h2
  omega

/-- A successful lookup comes from an entry of the list. -/
theorem alGet_mem {α : Type} (m : List (String × α)) (k : String) (v : α)
    (h : alGet m k = some v) : (k, v) ∈ m := by
  induction m with
  | nil => exact absurd h (by simp [alGet])
  | cons p rest ih =>
    obtain ⟨k1, v1⟩ := p
    by_cases h1 : k1 = k
    · subst h1
      have hv : v1 = v := by simpa [alGet] using h
      subst hv
      exact List.mem_cons_self _ _
    · simp only [alGet, if_neg h1] at h
      exact List.mem_cons_of_mem _ (ih h)

/-- C1: claimed - in a sequential workflow [A, B] with A.passResults = true,
the completed result of A is forwarded to B before B is spawned and B then
holds exactly that one Message in its inbox. In the code, sendMessage throws
when the recipient has no inbox and inboxes are created only at spawn time,
so the forwarding call itself fails: the workflow ends failed with the
AgentNotFound error for B, B is never spawned and B has no inbox at all,
while A was spawned and still exists. -/
theorem c1_sequential_pass_results_fails :
    ((executeWorkflow (createWorkflow initialFramework "demo" "sequential"
        (some [{ agent := "A", task := "ta", passResults := true },
               { agent := "B", task := "tb", passResults := false }])).1 "demo").2 =
      Except.error "Agent demo-B not found") ∧
    ((alGet (executeWorkflow (createWorkflow initialFramework "demo" "sequential"
        (some [{ agent := "A", task := "ta", passResults := true },
               { agent := "B", task := "tb", passResults := false }])).1 "demo").1.workflows
        "demo").map Workflow.status = some "failed") ∧
    (alGet (executeWorkflow (createWorkflow initialFramework "demo" "sequential"
        (some [{ agent := "A", task := "ta", passResults := true },
               { agent := "B", task := "tb", passResults := false }])).1 "demo").1.coord.agents
        "demo-B" = none) ∧
    (getMessages (executeWorkflow (createWorkflow initialFramework "demo" "sequential"
        (some [{ agent := "A", task := "ta", passResults := true },
               { agent := "B", task := "tb", passResults := false }])).1 "demo").1.coord
        "demo-B" = []) ∧
    ((alGet (executeWorkflow (createWorkflow initialFramework "demo" "sequential"
        (some [{ agent := "A", task := "ta", passResults := true },
               { agent := "B", task := "tb", passResults := false }])).1 "demo").1.coord.agents
        "demo-A").isSome = true) := by
  decide

/-- C2 counterexample: the claim says a spawned agent is transitioned to
Active before the executor runs. On the code, the agent is idle right after
spawnAgent returns and the scheduled completion moves it straight to
completed; the status active is never observed. -/
theorem c2_counterexample_no_active_state :
    ((alGet (spawnAgent initialCoord "a" "t").1.agents "a").map Agent.status =
      some "idle") ∧
    ((alGet (fireCompletions (spawnAgent initialCoord "a" "t").1).agents "a").map
      Agent.status = some "completed") ∧
    ¬(alGet (spawnAgent initialCoord "a" "t").1.agents "a").map Agent.status =
      some "active" ∧
    ¬(alGet (fireCompletions (spawnAgent initialCoord "a" "t").1).agents "a").map
      Agent.status = some "active" := by
  decide

/-- Folding timers that end with a completion for the given id completes
that agent with the last result while keeping its identity fields. -/
theorem runPending_last_complete (b : CoordState) (ps : List (String × AgentResult))
    (id : String) (r : AgentResult) (a : Agent)
    (h : alGet b.agents id = some a) :
    ∃ a2, alGet (runPending b (ps ++ [(id, r)])).agents id = some a2 ∧
      a2.id = a.id ∧ a2.task = a.task ∧ a2.status = "completed" ∧ a2.results = some r := by
  rw [runPending_append]
  obtain ⟨a1, h1, hid1, ht1⟩ := runPending_fields ps id b a h
  have hone : runPending (runPending b ps) [(id, r)] =
      completeAgent (runPending b ps) id r := rfl
  rw [hone]
  exact ⟨_, completeAgent_get_self _ id r a1 h1, hid1, ht1, rfl, rfl⟩

/-- C2 amended: a successful Spawn stores the Agent as idle with empty
results; when the scheduled executor completion fires, the agent moves
directly to completed carrying the simulated executor output - it is never
active and never failed. -/
theorem c2_spawn_lifecycle (st c1 : CoordState) (id task : String) (a : Agent)
    (h : spawnAgent st id task = (c1, Except.ok a)) :
    a.status = "idle" ∧ a.results = none ∧
    alGet c1.agents id = some a ∧
    (∃ a2, alGet (fireCompletions c1).agents id = some a2 ∧
       a2.id = id ∧ a2.task = task ∧ a2.status = "completed" ∧
       a2.results = some { completed := true, output := generateRealisticResult id task }) := by
  obtain ⟨h0, hc, ha⟩ := spawnAgent_ok_inv st id task c1 a h
  subst hc
  subst ha
  refine ⟨rfl, rfl, by simp [alGet_alSet], ?_⟩
  have hb : alGet (CoordState.mk
      (alSet st.agents id { id := id, task := task, status := "idle", results := none })
      (alSet st.messageQueues id []) []
      (st.events ++ [Event.agentSpawned id task])).agents id =
      some { id := id, task := task, status := "idle", results := none } := by
    simp [alGet_alSet]
  obtain ⟨a2, hg, hid2, ht2, hs2, hr2⟩ :=
    runPending_last_complete _ st.pending id
      { completed := true, output := generateRealisticResult id task }
      { id := id, task := task, status := "idle", results := none } hb
  exact ⟨a2, hg, hid2, ht2, hs2, hr2⟩

/-- C2 witness at a concrete spawn on the fresh coordinator. -/
theorem c2_spawn_lifecycle_witness :
    ({ id := "a", task := "t", status := "idle", results := none } : Agent).status = "idle" ∧
    ({ id := "a", task := "t", status := "idle", results := none } : Agent).results = none ∧
    alGet (spawnAgent initialCoord "a" "t").1.agents "a" =
      some { id := "a", task := "t", status := "idle", results := none } ∧
    (∃ a2, alGet (fireCompletions (spawnAgent initialCoord "a" "t").1).agents "a" = some a2 ∧
       a2.id = "a" ∧ a2.task = "t" ∧ a2.status = "completed" ∧
       a2.results = some { completed := true, output := generateRealisticResult "a" "t" }) :=
  c2_spawn_lifecycle initialCoord (spawnAgent initialCoord "a" "t").1 "a" "t"
    { id := "a", task := "t", status := "idle", results := none } (by decide)

/-- C3: a second Spawn with an id that already exists fails with the
duplicate-agent error and mutates nothing: the returned state is exactly the
state after the first Spawn. -/
theorem c3_duplicate_spawn (st st1 : CoordState) (id task1 task2 : String) (a : Agent)
    (h : spawnAgent st id task1 = (st1, Except.ok a)) :
    spawnAgent st1 id task2 = (st1, Except.error ("Agent " ++ id ++ " already exists")) := by
  obtain ⟨h0, hc, ha⟩ := spawnAgent_ok_inv st id task1 st1 a h
  apply spawnAgent_dup
  rw [hc]
  simp [alGet_alSet]

/-- C3 witness at a concrete spawn-then-duplicate call pair. -/
theorem c3_duplicate_spawn_witness :
    spawnAgent (spawnAgent initialCoord "a" "t").1 "a" "u" =
      ((spawnAgent initialCoord "a" "t").1, Except.error "Agent a already exists") :=
  c3_duplicate_spawn initialCoord (spawnAgent initialCoord "a" "t").1 "a" "t" "u"
    { id := "a", task := "t", status := "idle", results := none } (by decide)

/-- C5 counterexample: the claim says CreateWorkflow rejects unknown types at
creation time. On the code, creating a workflow with the unknown type bogus
succeeds, stores it as initialized, and the rejection happens only when
ExecuteWorkflow later dispatches. -/
theorem c5_counterexample_unknown_type_accepted :
    ((createWorkflow initialFramework "w" "bogus" none).2.status = "initialized") ∧
    (alGet (createWorkflow initialFramework "w" "bogus" none).1.workflows "w" =
      some (createWorkflow initialFramework "w" "bogus" none).2) ∧
    ¬"bogus" = "sequential" ∧ ¬"bogus" = "parallel" ∧
    ((executeWorkflow (createWorkflow initialFramework "w" "bogus" none).1 "w").2 =
      Except.error "Unknown workflow type: bogus") := by
  decide

/-- C5 amended: CreateWorkflow performs no type validation - it stores any
type, takes the plan from config.tasks defaulting to the empty list, and
returns the workflow as initialized; an unknown type is rejected only when
ExecuteWorkflow dispatches, which then marks the workflow failed. -/
theorem c5_create_workflow_amended (fs : FrameworkState) (id ty : String)
    (cfg : Option (List WTask)) :
    ((createWorkflow fs id ty cfg).2 =
      { id := id, type := ty, status := "initialized", config := cfg,
        tasks := cfg.getD [], agents := [], results := [], error := none }) ∧
    (alGet (createWorkflow fs id ty cfg).1.workflows id =
      some (createWorkflow fs id ty cfg).2) ∧
    (¬ty = "sequential" → ¬ty = "parallel" →
      (executeWorkflow (createWorkflow fs id ty cfg).1 id).2 =
        Except.error ("Unknown workflow type: " ++ ty) ∧
      (alGet (executeWorkflow (createWorkflow fs id ty cfg).1 id).1.workflows id).map
        Workflow.status = some "failed") := by
  refine ⟨rfl, by simp [createWorkflow, alGet_alSet], ?_⟩
  intro hseq hpar
  have hget : alGet (createWorkflow fs id ty cfg).1.workflows id =
      some { id := id, type := ty, status := "initialized", config := cfg,
             tasks := cfg.getD [], agents := [], results := [], error := none } := by
    simp [createWorkflow, alGet_alSet]
  have hdisp : dispatchStrategy (createWorkflow fs id ty cfg).1.coord
      { id := id, type := ty, status := "running", config := cfg,
        tasks := cfg.getD [], agents := [], results := [], error := none } =
      ((createWorkflow fs id ty cfg).1.coord,
       { id := id, type := ty, status := "running", config := cfg,
         tasks := cfg.getD [], agents := [], results := [], error := none },
       Except.error ("Unknown workflow type: " ++ ty)) := by
    simp [dispatchStrategy, hseq, hpar]
  constructor
  · simp only [executeWorkflow, hget, hdisp]
  · simp only [executeWorkflow, hget, hdisp]
    simp [alGet_alSet]

/-- C5 witness at a concrete unknown workflow type. -/
theorem c5_create_workflow_witness :
    ((executeWorkflow (createWorkflow initialFramework "w2" "bogus" none).1 "w2").2 =
      Except.error "Unknown workflow type: bogus") ∧
    ((alGet (executeWorkflow (createWorkflow initialFramework "w2" "bogus" none).1
        "w2").1.workflows "w2").map Workflow.status = some "failed") :=
  (c5_create_workflow_amended initialFramework "w2" "bogus" none).2.2
    (by decide) (by decide)

/-- C8: Terminate is idempotent - a second call on the same id changes
nothing; terminating an unknown id is a complete no-op (no error, no event);
terminating an existing agent removes its record and inbox and emits exactly
one terminated event. -/
theorem c8_terminate_idempotent (st : CoordState) (id : String) :
    terminateAgent (terminateAgent st id) id = terminateAgent st id ∧
    (alGet st.agents id = none → terminateAgent st id = st) ∧
    (∀ a, alGet st.agents id = some a →
      alGet (terminateAgent st id).agents id = none ∧
      alGet (terminateAgent st id).messageQueues id = none ∧
      (terminateAgent st id).events = st.events ++ [Event.agentTerminated id]) := by
  have hnone : ∀ s : CoordState, alGet s.agents id = none → terminateAgent s id = s := by
    intro s hs
    simp [terminateAgent, hs]
  cases hid : alGet st.agents id with
  | none =>
    refine ⟨?_, fun _ => hnone st hid, fun a ha => Option.noConfusion ha⟩
    rw [hnone st hid, hnone st hid]
  | some a =>
    have hsome : (alGet st.agents id).isSome = true := by rw [hid]; rfl
    have hterm : terminateAgent st id =
        { st with
            agents := alDelete st.agents id
            messageQueues := alDelete st.messageQueues id
            events := st.events ++ [Event.agentTerminated id] } := by
      simp [terminateAgent, hsome]
    have hgone : alGet (terminateAgent st id).agents id = none := by
      rw [hterm]
      simp [alGet_alDelete]
    exact ⟨hnone _ hgone, fun h => Option.noConfusion h,
      fun b hb => ⟨hgone, by rw [hterm]; simp [alGet_alDelete], by rw [hterm]⟩⟩

/-- C8 witness at a concrete spawned agent and a fresh id. -/
theorem c8_terminate_idempotent_witness :
    (terminateAgent (terminateAgent (spawnAgent initialCoord "a" "t").1 "a") "a" =
      terminateAgent (spawnAgent initialCoord "a" "t").1 "a") ∧
    (alGet (spawnAgent initialCoord "a" "t").1.agents "a" =
      some { id := "a", task := "t", status := "idle", results := none } →
      alGet (terminateAgent (spawnAgent initialCoord "a" "t").1 "a").agents "a" = none ∧
      alGet (terminateAgent (spawnAgent initialCoord "a" "t").1 "a").messageQueues "a" = none ∧
      (terminateAgent (spawnAgent initialCoord "a" "t").1 "a").events =
        (spawnAgent initialCoord "a" "t").1.events ++ [Event.agentTerminated "a"]) ∧
    (alGet initialCoord.agents "missing" = none → terminateAgent initialCoord "missing" = initialCoord) :=
  ⟨(c8_terminate_idempotent (spawnAgent initialCoord "a" "t").1 "a").1,
   (c8_terminate_idempotent (spawnAgent initialCoord "a" "t").1 "a").2.2
     { id := "a", task := "t", status := "idle", results := none },
   (c8_terminate_idempotent initialCoord "missing").2.1⟩

/-- C10: CreateWorkflow on an id that is already stored - whatever status the
stored workflow has - raises no error and silently replaces the record with a
fresh initialized one having empty results and no spawned agents. -/
theorem c10_create_workflow_replaces (fs : FrameworkState) (id ty : String)
    (cfg : Option (List WTask)) (wfOld : Workflow)
    (_hold : alGet fs.workflows id = some wfOld) :
    alGet (createWorkflow fs id ty cfg).1.workflows id =
      some { id := id, type := ty, status := "initialized", config := cfg,
             tasks := cfg.getD [], agents := [], results := [], error := none } ∧
    (createWorkflow fs id ty cfg).2 =
      { id := id, type := ty, status := "initialized", config := cfg,
        tasks := cfg.getD [], agents := [], results := [], error := none } := by
  exact ⟨by simp [createWorkflow, alGet_alSet], rfl⟩

/-- C10 witness: re-creating over a stored running workflow replaces it. -/
theorem c10_create_workflow_replaces_witness :
    alGet (createWorkflow
      (FrameworkState.mk initialCoord
        [("w", Workflow.mk "w" "sequential" "running" none [] ["w-A"]
          [("A", none)] none)] [])
      "w" "parallel" none).1.workflows "w" =
      some { id := "w", type := "parallel", status := "initialized", config := none,
             tasks := [], agents := [], results := [], error := none } :=
  (c10_create_workflow_replaces
    (FrameworkState.mk initialCoord
      [("w", Workflow.mk "w" "sequential" "running" none [] ["w-A"]
        [("A", none)] none)] [])
    "w" "parallel" none
    (Workflow.mk "w" "sequential" "running" none [] ["w-A"] [("A", none)] none)
    (by decide)).1

/-- Inversion of a failed getAgentStatus call. -/
theorem getAgentStatus_err_inv (st : CoordState) (id : String) (e : String)
    (h : getAgentStatus st id = Except.error e) :
    alGet st.agents id = none ∧ e = "Agent " ++ id ++ " not found" := by
  cases hid : alGet st.agents id with
  | none =>
    rw [getAgentStatus_err st id hid] at h
    exact ⟨rfl, (Except.error.injEq .. |>.mp h).symm⟩
  | some a =>
    rw [getAgentStatus_ok st id a hid] at h
    exact absurd h (by simp)

/-- C6 counterexample: the claim says the agent is still Active after a
timed-out wait. On the code, a wait that times out (here: a zero timeout,
so zero polls) leaves the agent exactly as it was - idle, never active. -/
theorem c6_counterexample_timeout_leaves_idle :
    (waitForAgent (spawnAgent initialCoord "a" "t").1 "a" 0 =
      ((spawnAgent initialCoord "a" "t").1, Except.error "Agent a timed out")) ∧
    ((alGet (spawnAgent initialCoord "a" "t").1.agents "a").map Agent.status =
      some "idle") ∧
    ¬(alGet (spawnAgent initialCoord "a" "t").1.agents "a").map Agent.status =
      some "active" := by
  decide

/-- C6 amended: for an agent whose executor never settles (no pending
completion timer) and whose status is idle, waitForAgent fails with the
timeout error for every poll budget and the agent is still present with its
status unchanged - idle, not active; moreover a successful wait happens only
on a completed agent and the agent-failed error only on a failed agent. -/
theorem c6_wait_for_agent_amended (id : String) :
    ∀ (fuel : Nat) (st st2 : CoordState) (r : Except String Bool),
      waitForAgent st id fuel = (st2, r) →
      (((alGet st.agents id).map Agent.status = some "idle" →
        (∀ p ∈ st.pending, ¬p.1 = id) →
        r = Except.error ("Agent " ++ id ++ " timed out") ∧
        ∃ a2, alGet st2.agents id = some a2 ∧ a2.status = "idle") ∧
       (∀ b, r = Except.ok b → b = true ∧
         ∃ a2, alGet st2.agents id = some a2 ∧ a2.status = "completed") ∧
       (r = Except.error ("Agent " ++ id ++ " failed") →
         ∃ a2, alGet st2.agents id = some a2 ∧ a2.status = "failed")) := by
  intro fuel
  induction fuel with
  | zero =>
    intro st st2 r hw
    simp only [waitForAgent] at hw
    obtain ⟨h1, h2⟩ := Prod.mk.injEq .. |>.mp hw
    subst h1
    subst h2
    refine ⟨?_, ?_, ?_⟩
    · intro hidle _
      cases hga : alGet st.agents id with
      | none => rw [hga] at hidle; exact absurd hidle (by simp)
      | some a =>
        rw [hga] at hidle
        simp only [Option.map_some', Option.some.injEq] at hidle
        exact ⟨rfl, a, by simp [hga], hidle⟩
    · intro b hb
      exact absurd hb (by simp)
    · intro hb
      have := Except.error.injEq .. |>.mp hb
      exact absurd this (timeoutMsg_ne_failedMsg id)
  | succ n ih =>
    intro st st2 r hw
    cases hg : getAgentStatus st id with
    | error e =>
      obtain ⟨hnone, he⟩ := getAgentStatus_err_inv st id e hg
      simp only [waitForAgent, hg] at hw
      obtain ⟨h1, h2⟩ := Prod.mk.injEq .. |>.mp hw
      subst h1
      subst h2
      refine ⟨?_, ?_, ?_⟩
      · intro hidle _
        rw [hnone] at hidle
        exact absurd hidle (by simp)
      · intro b hb
        exact absurd hb (by simp)
      · intro hb
        have h3 := Except.error.injEq .. |>.mp hb
        rw [he] at h3
        exact absurd h3 (notFoundMsg_ne_failedMsg id)
    | ok a =>
      have hinv := getAgentStatus_ok_inv st id a hg
      by_cases hc : a.status = "completed"
      · simp only [waitForAgent, hg, if_pos hc] at hw
        obtain ⟨h1, h2⟩ := Prod.mk.injEq .. |>.mp hw
        subst h1
        subst h2
        refine ⟨?_, ?_, ?_⟩
        · intro hidle _
          rw [hinv] at hidle
          simp only [Option.map_some', Option.some.injEq] at hidle
          rw [hidle] at hc
          exact absurd hc (by decide)
        · intro b hb
          have h3 := (Except.ok.injEq .. |>.mp hb)
          exact ⟨h3.symm, a, hinv, hc⟩
        · intro hb
          exact absurd hb (by simp)
      · by_cases hf : a.status = "failed"
        · simp only [waitForAgent, hg, if_neg hc, if_pos hf] at hw
          obtain ⟨h1, h2⟩ := Prod.mk.injEq .. |>.mp hw
          subst h1
          subst h2
          refine ⟨?_, ?_, ?_⟩
          · intro hidle _
            rw [hinv] at hidle
            simp only [Option.map_some', Option.some.injEq] at hidle
            rw [hidle] at hf
            exact absurd hf (by decide)
          · intro b hb
            exact absurd hb (by simp)
          · intro _
            exact ⟨a, hinv, hf⟩
        · simp only [waitForAgent, hg, if_neg hc, if_neg hf] at hw
          obtain ⟨ih1, ih2, ih3⟩ := ih (fireCompletions st) st2 r hw
          refine ⟨?_, ih2, ih3⟩
          intro hidle hpend
          apply ih1
          · rw [fireCompletions_get_not_mem st id hpend]
            exact hidle
          · rw [fireCompletions_pending]
            intro p hp
            exact absurd hp (List.not_mem_nil p)

/-- C6 witness: a coordinator holding one idle agent with no pending
executor completion; a three-poll wait times out and leaves it idle. -/
theorem c6_wait_for_agent_witness :
    (waitForAgent (CoordState.mk [("a", Agent.mk "a" "t" "idle" none)] [("a", [])] [] [])
        "a" 3).2 = Except.error "Agent a timed out" ∧
    ∃ a2, alGet (waitForAgent (CoordState.mk [("a", Agent.mk "a" "t" "idle" none)]
        [("a", [])] [] []) "a" 3).1.agents "a" = some a2 ∧ a2.status = "idle" :=
  ((c6_wait_for_agent_amended "a" 3
      (CoordState.mk [("a", Agent.mk "a" "t" "idle" none)] [("a", [])] [] [])
      (waitForAgent (CoordState.mk [("a", Agent.mk "a" "t" "idle" none)] [("a", [])] [] [])
        "a" 3).1
      (waitForAgent (CoordState.mk [("a", Agent.mk "a" "t" "idle" none)] [("a", [])] [] [])
        "a" 3).2
      rfl).1 (by decide) (by decide))

/-- With every agent idle or completed, the active count is zero. -/
theorem statusOK_active_zero (st : CoordState) (h : statusOK st.agents) :
    (getStatistics st).activeAgents = 0 := by
  simp only [getStatistics]
  rw [List.length_eq_zero, List.filter_eq_nil_iff]
  intro p hp
  rcases h p hp with hs | hs <;> simp [hs]

/-- With every agent idle or completed, no wait can produce the
agent-failed error. -/
theorem statusOK_no_failed_wait (id : String) :
    ∀ (fuel : Nat) (st : CoordState), statusOK st.agents →
      ¬(waitForAgent st id fuel).2 = Except.error ("Agent " ++ id ++ " failed") := by
  intro fuel
  induction fuel with
  | zero =>
    intro st _ heq
    simp only [waitForAgent] at heq
    exact absurd (Except.error.injEq .. |>.mp heq) (timeoutMsg_ne_failedMsg id)
  | succ n ih =>
    intro st h heq
    cases hg : getAgentStatus st id with
    | error e =>
      obtain ⟨-, he⟩ := getAgentStatus_err_inv st id e hg
      simp only [waitForAgent, hg] at heq
      have h3 := Except.error.injEq .. |>.mp heq
      rw [he] at h3
      exact absurd h3 (notFoundMsg_ne_failedMsg id)
    | ok a =>
      have hinv := getAgentStatus_ok_inv st id a hg
      rcases h (id, a) (alGet_mem st.agents id a hinv) with hs | hs
      · have hc : ¬a.status = "completed" := by rw [hs]; decide
        have hf : ¬a.status = "failed" := by rw [hs]; decide
        simp only [waitForAgent, hg, if_neg hc, if_neg hf] at heq
        exact ih (fireCompletions st) (fireCompletions_statusOK st h) heq
      · simp only [waitForAgent, hg, if_pos hs] at heq
        exact absurd heq (by simp)

/-- executeWorkflow only drives the strategies, which keep the invariant. -/
theorem executeWorkflow_statusOK (fs : FrameworkState) (id : String)
    (h : statusOK fs.coord.agents) :
    statusOK (executeWorkflow fs id).1.coord.agents := by
  cases h0 : alGet fs.workflows id with
  | none => simpa only [executeWorkflow, h0] using h
  | some wf =>
    have hd := (dispatchStrategy_spec fs.coord { wf with status := "running" }).2.1 h
    cases hds : dispatchStrategy fs.coord { wf with status := "running" } with
    | mk c rest =>
      obtain ⟨wf2, res⟩ := rest
      rw [hds] at hd
      cases res with
      | ok u => simpa only [executeWorkflow, h0, hds] using hd
      | error e => simpa only [executeWorkflow, h0, hds] using hd

/-- C9: in every reachable state every stored agent is idle or completed -
never active and never failed - so getStatistics always reports zero active
agents and waitForAgent can never return the agent-failed error (its
AgentFailed branch is unreachable; the embedding also has no agent-failed
event constructor because the source has no such emit call). -/
theorem c9_status_invariant (fs : FrameworkState) (h : Reachable fs) :
    statusOK fs.coord.agents ∧
    (getStatistics fs.coord).activeAgents = 0 ∧
    (∀ id fuel, ¬(waitForAgent fs.coord id fuel).2 =
      Except.error ("Agent " ++ id ++ " failed")) := by
  have hOK : statusOK fs.coord.agents := by
    induction h with
    | start => intro p hp; exact absurd hp (List.not_mem_nil p)
    | spawn fs id task hr ih => exact spawnAgent_statusOK fs.coord id task ih
    | send fs f t m hr ih => exact sendMessage_statusOK fs.coord f t m ih
    | terminate fs id hr ih => exact terminateAgent_statusOK fs.coord id ih
    | complete fs id r hr ih => exact completeAgent_statusOK fs.coord id r ih
    | tick fs hr ih => exact fireCompletions_statusOK fs.coord ih
    | wait fs id fuel hr ih => exact waitForAgent_statusOK id fuel fs.coord ih
    | create fs id ty cfg hr ih => exact ih
    | execute fs id hr ih => exact executeWorkflow_statusOK fs id ih
  exact ⟨hOK, statusOK_active_zero fs.coord hOK,
         fun id fuel => statusOK_no_failed_wait id fuel fs.coord hOK⟩

/-- C9 witness at the reachable state holding one freshly spawned agent. -/
theorem c9_status_invariant_witness :
    statusOK (withCoord initialFramework
      (spawnAgent initialFramework.coord "a" "t").1).coord.agents ∧
    (getStatistics (withCoord initialFramework
      (spawnAgent initialFramework.coord "a" "t").1).coord).activeAgents = 0 ∧
    (∀ id fuel, ¬(waitForAgent (withCoord initialFramework
      (spawnAgent initialFramework.coord "a" "t").1).coord id fuel).2 =
      Except.error ("Agent " ++ id ++ " failed")) :=
  c9_status_invariant
    (withCoord initialFramework (spawnAgent initialFramework.coord "a" "t").1)
    (Reachable.spawn initialFramework "a" "t" Reachable.start)

/-- C4: when any task-level step of ExecuteWorkflow raises, the stored
workflow is the one the failing strategy produced with only its status set
to failed and its error set to the raised message - the partial results the
strategy had collected are preserved untouched - the same error is returned
to the caller, no agent present before the call was removed, and every agent
the run spawned is still present. -/
theorem c4_workflow_failure_handling (fs : FrameworkState) (workflowId : String)
    (wf0 : Workflow) (h0 : alGet fs.workflows workflowId = some wf0)
    (fs2 : FrameworkState) (e : String)
    (hrun : executeWorkflow fs workflowId = (fs2, Except.error e)) :
    (∃ coordR wfR,
      dispatchStrategy fs.coord { wf0 with status := "running" } =
        (coordR, wfR, Except.error e) ∧
      fs2.coord = coordR ∧
      alGet fs2.workflows workflowId =
        some { wfR with status := "failed", error := some e } ∧
      (∀ a ∈ wfR.agents, a ∈ wf0.agents ∨ (alGet fs2.coord.agents a).isSome = true)) ∧
    keepAgents fs.coord fs2.coord := by
  obtain ⟨hkd, -, had⟩ := dispatchStrategy_spec fs.coord { wf0 with status := "running" }
  cases hds : dispatchStrategy fs.coord { wf0 with status := "running" } with
  | mk c rest =>
    obtain ⟨wfR, res⟩ := rest
    rw [hds] at hkd had
    cases res with
    | ok u =>
      simp only [executeWorkflow, h0, hds] at hrun
      exact absurd (congrArg Prod.snd hrun) (by simp)
    | error e2 =>
      simp only [executeWorkflow, h0, hds] at hrun
      obtain ⟨h1, h2⟩ := Prod.mk.injEq .. |>.mp hrun
      have he : e2 = e := Except.error.injEq .. |>.mp h2
      subst he
      subst h1
      refine ⟨⟨c, wfR, rfl, rfl, by simp [alGet_alSet], ?_⟩, hkd⟩
      intro a ha
      rcases had a ha with ha2 | ha2
      · exact Or.inl ha2
      · exact Or.inr ha2

/-- C4 witness at the concrete failing sequential pass-results workflow. -/
theorem c4_workflow_failure_witness :
    (∃ coordR wfR,
      dispatchStrategy (createWorkflow initialFramework "demo" "sequential"
          (some [{ agent := "A", task := "ta", passResults := true },
                 { agent := "B", task := "tb", passResults := false }])).1.coord
        { id := "demo", type := "sequential", status := "running",
          config := some [{ agent := "A", task := "ta", passResults := true },
                          { agent := "B", task := "tb", passResults := false }],
          tasks := [{ agent := "A", task := "ta", passResults := true },
                    { agent := "B", task := "tb", passResults := false }],
          agents := [], results := [], error := none } =
        (coordR, wfR, Except.error "Agent demo-B not found") ∧
      (executeWorkflow (createWorkflow initialFramework "demo" "sequential"
          (some [{ agent := "A", task := "ta", passResults := true },
                 { agent := "B", task := "tb", passResults := false }])).1 "demo").1.coord = coordR ∧
      alGet (executeWorkflow (createWorkflow initialFramework "demo" "sequential"
          (some [{ agent := "A", task := "ta", passResults := true },
                 { agent := "B", task := "tb", passResults := false }])).1 "demo").1.workflows
        "demo" = some { wfR with status := "failed", error := some "Agent demo-B not found" } ∧
      (∀ a ∈ wfR.agents, a ∈ ([] : List String) ∨
        (alGet (executeWorkflow (createWorkflow initialFramework "demo" "sequential"
            (some [{ agent := "A", task := "ta", passResults := true },
                   { agent := "B", task := "tb", passResults := false }])).1
          "demo").1.coord.agents a).isSome = true)) ∧
    keepAgents (createWorkflow initialFramework "demo" "sequential"
        (some [{ agent := "A", task := "ta", passResults := true },
               { agent := "B", task := "tb", passResults := false }])).1.coord
      (executeWorkflow (createWorkflow initialFramework "demo" "sequential"
          (some [{ agent := "A", task := "ta", passResults := true },
                 { agent := "B", task := "tb", passResults := false }])).1 "demo").1.coord :=
  c4_workflow_failure_handling
    (createWorkflow initialFramework "demo" "sequential"
      (some [{ agent := "A", task := "ta", passResults := true },
             { agent := "B", task := "tb", passResults := false }])).1
    "demo"
    { id := "demo", type := "sequential", status := "initialized",
      config := some [{ agent := "A", task := "ta", passResults := true },
                      { agent := "B", task := "tb", passResults := false }],
      tasks := [{ agent := "A", task := "ta", passResults := true },
                { agent := "B", task := "tb", passResults := false }],
      agents := [], results := [], error := none }
    (by decide)
    (executeWorkflow (createWorkflow initialFramework "demo" "sequential"
        (some [{ agent := "A", task := "ta", passResults := true },
               { agent := "B", task := "tb", passResults := false }])).1 "demo").1
    "Agent demo-B not found"
    (by decide)

/-- String append cancels on the left. -/
theorem string_append_cancel_left (p a b : String) (h : p ++ a = p ++ b) : a = b := by
  obtain ⟨pd⟩ := p
  obtain ⟨ad⟩ := a
  obtain ⟨bd⟩ := b
  have h2 : pd ++ ad = pd ++ bd := congrArg String.data h
  exact congrArg String.mk (List.append_cancel_left h2)

/-- Distinct task agent names give distinct derived agent ids. -/
theorem nodup_agent_ids (wfid : String) (ts : List WTask)
    (h : (ts.map WTask.agent).Nodup) :
    (ts.map (fun t => wfid ++ "-" ++ t.agent)).Nodup := by
  have he : ts.map (fun t => wfid ++ "-" ++ t.agent) =
      (ts.map WTask.agent).map (fun n => wfid ++ "-" ++ n) := by
    simp [List.map_map, Function.comp]
  rw [he]
  exact h.map (fun a b hab => string_append_cancel_left (wfid ++ "-") a b hab)

/-- Setting a fresh key appends the entry at the end. -/
theorem alSet_append_fresh {α : Type} (m : List (String × α)) (k : String) (v : α)
    (h : alGet m k = none) : alSet m k v = m ++ [(k, v)] := by
  induction m with
  | nil => rfl
  | cons p rest ih =>
    obtain ⟨k1, v1⟩ := p
    by_cases h1 : k1 = k
    · rw [show alGet ((k1, v1) :: rest) k = some v1 from by simp [alGet, h1]] at h
      exact absurd h (by simp)
    · simp only [alGet, if_neg h1] at h
      simp only [alSet, if_neg h1, ih h, List.cons_append]

/-- A key absent from both parts is absent from the concatenation. -/
theorem alGet_append_none {α : Type} (m1 m2 : List (String × α)) (k : String)
    (h1 : alGet m1 k = none) (h2 : alGet m2 k = none) :
    alGet (m1 ++ m2) k = none := by
  induction m1 with
  | nil => simpa using h2
  | cons p rest ih =>
    obtain ⟨k1, v1⟩ := p
    by_cases hk : k1 = k
    · rw [show alGet ((k1, v1) :: rest) k = some v1 from by simp [alGet, hk]] at h1
      exact absurd h1 (by simp)
    · simp only [alGet, if_neg hk] at h1
      simp only [List.cons_append, alGet, if_neg hk]
      exact ih h1

/-- Folding fresh distinct-key pairs into an object appends them in order. -/
theorem foldl_alSet_fresh {α : Type} (pairs : List (String × α)) :
    ∀ acc : List (String × α),
    (∀ p ∈ pairs, alGet acc p.1 = none) →
    (pairs.map Prod.fst).Nodup →
    pairs.foldl (fun r p => alSet r p.1 p.2) acc = acc ++ pairs := by
  induction pairs with
  | nil => intro acc _ _; simp
  | cons p rest ih =>
    intro acc hfresh hnodup
    simp only [List.foldl_cons]
    rw [alSet_append_fresh acc p.1 p.2 (hfresh p (List.mem_cons_self _ _))]
    rw [ih (acc ++ [(p.1, p.2)]) ?_ ?_]
    · simp
    · intro q hq
      apply alGet_append_none
      · exact hfresh q (List.mem_cons_of_mem _ hq)
      · have hne : ¬p.1 = q.1 := by
          intro he
          have : q.1 ∈ rest.map Prod.fst := List.mem_map_of_mem Prod.fst hq
          rw [← he] at this
          exact (List.nodup_cons.mp (by simpa using hnodup)).1 this
        simp [alGet, hne]
    · exact (List.nodup_cons.mp (by simpa using hnodup)).2

/-- One poll on an already completed agent returns success at once. -/
theorem waitForAgent_completed_step (st : CoordState) (id : String) (fuel : Nat)
    (a : Agent) (h : alGet st.agents id = some a) (hc : a.status = "completed")
    (hf : 0 < fuel) : waitForAgent st id fuel = (st, Except.ok true) := by
  cases fuel with
  | zero => omega
  | succ n => simp only [waitForAgent, getAgentStatus_ok st id a h, if_pos hc]

/-- A poll on an idle agent sleeps once - firing the pending timers - and the
next poll returns success when the firing completed the agent. -/
theorem waitForAgent_idle_then_completed (st : CoordState) (id : String) (fuel : Nat)
    (a : Agent) (h : alGet st.agents id = some a) (hidle : a.status = "idle")
    (a2 : Agent) (hcomp : alGet (fireCompletions st).agents id = some a2)
    (hc2 : a2.status = "completed") (hf : 1 < fuel) :
    waitForAgent st id fuel = (fireCompletions st, Except.ok true) := by
  cases fuel with
  | zero => omega
  | succ n =>
    have hc : ¬a.status = "completed" := by rw [hidle]; decide
    have hfail : ¬a.status = "failed" := by rw [hidle]; decide
    simp only [waitForAgent, getAgentStatus_ok st id a h, if_neg hc, if_neg hfail]
    exact waitForAgent_completed_step (fireCompletions st) id n a2 hcomp hc2 (by omega)

/-- Fan-in over agents that are all already completed succeeds without
touching the state and returns one pair per task, in task order. -/
theorem parWaitAll_completed (wfId : String) (ts : List WTask) :
    ∀ c : CoordState,
    (∀ t ∈ ts, ∃ a, alGet c.agents (wfId ++ "-" ++ t.agent) = some a ∧
      a.status = "completed") →
    ∃ pairs, parWaitAll c wfId ts = (c, Except.ok pairs) ∧
      pairs.map Prod.fst = ts.map WTask.agent := by
  induction ts with
  | nil => intro c _; exact ⟨[], rfl, rfl⟩
  | cons t rest ih =>
    intro c hall
    obtain ⟨a, ha, hc⟩ := hall t (List.mem_cons_self _ _)
    obtain ⟨pairs, hrec, hmap⟩ := ih c (fun q hq => hall q (List.mem_cons_of_mem _ hq))
    have hw : waitForAgent c (wfId ++ "-" ++ t.agent) waitFuel = (c, Except.ok true) :=
      waitForAgent_completed_step c _ waitFuel a ha hc (by decide)
    refine ⟨(t.agent, a.results) :: pairs, ?_, by simp [hmap]⟩
    simp only [parWaitAll, hw, getAgentStatus_ok c _ a ha, hrec]

/-- Fan-out over fresh, pairwise distinct agent ids: every spawn succeeds,
the ids are appended to the workflow record in task order, every other agent
entry is untouched, every spawned agent sits idle in the map, and one
completion timer per task is appended to the pending queue in task order. -/
theorem parSpawnAll_fresh (ts : List WTask) :
    ∀ (coord : CoordState) (wf : Workflow),
    (∀ t ∈ ts, alGet coord.agents (wf.id ++ "-" ++ t.agent) = none) →
    ((ts.map (fun t => wf.id ++ "-" ++ t.agent)).Nodup) →
    ∃ c1, parSpawnAll coord wf ts =
        (c1, { wf with agents := wf.agents ++ ts.map (fun t => wf.id ++ "-" ++ t.agent) },
         none) ∧
      (∀ k, (∀ t ∈ ts, ¬(wf.id ++ "-" ++ t.agent) = k) →
        alGet c1.agents k = alGet coord.agents k) ∧
      (∀ t ∈ ts, alGet c1.agents (wf.id ++ "-" ++ t.agent) =
        some (Agent.mk (wf.id ++ "-" ++ t.agent) t.task "idle" none)) ∧
      c1.pending = coord.pending ++ ts.map (fun t => (wf.id ++ "-" ++ t.agent,
        AgentResult.mk true (generateRealisticResult (wf.id ++ "-" ++ t.agent) t.task))) := by
  induction ts with
  | nil =>
    intro coord wf _ _
    refine ⟨coord, by simp [parSpawnAll], fun k _ => rfl, fun t ht => absurd ht (List.not_mem_nil t), by simp⟩
  | cons t rest ih =>
    intro coord wf hfresh hnodup
    have hfr : alGet coord.agents (wf.id ++ "-" ++ t.agent) = none :=
      hfresh t (List.mem_cons_self _ _)
    have hsp := spawnAgent_ok coord (wf.id ++ "-" ++ t.agent) t.task hfr
    have hhead : (wf.id ++ "-" ++ t.agent) ∉ rest.map (fun q => wf.id ++ "-" ++ q.agent) :=
      (List.nodup_cons.mp (by simpa using hnodup)).1
    have htail : (rest.map (fun q => wf.id ++ "-" ++ q.agent)).Nodup :=
      (List.nodup_cons.mp (by simpa using hnodup)).2
    obtain ⟨c2, heq, hunt, hstat, hpend⟩ := ih
      (CoordState.mk
        (alSet coord.agents (wf.id ++ "-" ++ t.agent)
          (Agent.mk (wf.id ++ "-" ++ t.agent) t.task "idle" none))
        (alSet coord.messageQueues (wf.id ++ "-" ++ t.agent) [])
        (coord.pending ++ [(wf.id ++ "-" ++ t.agent,
          AgentResult.mk true (generateRealisticResult (wf.id ++ "-" ++ t.agent) t.task))])
        (coord.events ++ [Event.agentSpawned (wf.id ++ "-" ++ t.agent) t.task]))
      { wf with agents := wf.agents ++ [wf.id ++ "-" ++ t.agent] }
      (by
        intro q hq
        have hne : ¬(wf.id ++ "-" ++ t.agent) = (wf.id ++ "-" ++ q.agent) := by
          intro he
          exact hhead (he ▸ List.mem_map_of_mem (fun r => wf.id ++ "-" ++ r.agent) hq)
        simp only [alGet_alSet, if_neg hne]
        exact hfresh q (List.mem_cons_of_mem _ hq))
      htail
    refine ⟨c2, ?_, ?_, ?_, ?_⟩
    · simp only [parSpawnAll, hsp, heq]
      simp [List.append_assoc]
    · intro k hk
      rw [hunt k (fun q hq => hk q (List.mem_cons_of_mem _ hq))]
      simp only [alGet_alSet, if_neg (hk t (List.mem_cons_self _ _))]
    · intro q hq
      rcases List.mem_cons.mp hq with hq1 | hq2
      · subst hq1
        rw [hunt (wf.id ++ "-" ++ q.agent) ?_]
        · simp [alGet_alSet]
        · intro r hr he
          exact hhead (he ▸ List.mem_map_of_mem (fun s => wf.id ++ "-" ++ s.agent) hr)
      · exact hstat q hq2
    · rw [hpend]
      simp [List.append_assoc]

/-- After firing the timer batch appended by a distinct-id fan-out, every
spawned agent is completed. -/
theorem fire_batch (wfId : String) (ts : List WTask) (c1 : CoordState)
    (P : List (String × AgentResult))
    (hp : c1.pending = P ++ ts.map (fun t => (wfId ++ "-" ++ t.agent,
        AgentResult.mk true (generateRealisticResult (wfId ++ "-" ++ t.agent) t.task))))
    (hnodup : (ts.map (fun t => wfId ++ "-" ++ t.agent)).Nodup)
    (hpres : ∀ t ∈ ts, (alGet c1.agents (wfId ++ "-" ++ t.agent)).isSome = true) :
    ∀ t ∈ ts, ∃ a2, alGet (fireCompletions c1).agents (wfId ++ "-" ++ t.agent) = some a2 ∧
      a2.status = "completed" := by
  intro t ht
  obtain ⟨l1, l2, hsplit⟩ := List.append_of_mem ht
  subst hsplit
  rw [fireCompletions_eq, hp]
  have hassoc : P ++ (l1 ++ t :: l2).map (fun q => (wfId ++ "-" ++ q.agent,
      AgentResult.mk true (generateRealisticResult (wfId ++ "-" ++ q.agent) q.task))) =
      ((P ++ l1.map (fun q => (wfId ++ "-" ++ q.agent,
        AgentResult.mk true (generateRealisticResult (wfId ++ "-" ++ q.agent) q.task)))) ++
       [(wfId ++ "-" ++ t.agent,
        AgentResult.mk true (generateRealisticResult (wfId ++ "-" ++ t.agent) t.task))]) ++
      l2.map (fun q => (wfId ++ "-" ++ q.agent,
        AgentResult.mk true (generateRealisticResult (wfId ++ "-" ++ q.agent) q.task))) := by
    simp [List.append_assoc]
  rw [hassoc, runPending_append, runPending_append]
  have hpres2 : (alGet (runPending
      (CoordState.mk c1.agents c1.messageQueues [] c1.events)
      (P ++ l1.map (fun q => (wfId ++ "-" ++ q.agent,
        AgentResult.mk true (generateRealisticResult (wfId ++ "-" ++ q.agent) q.task))))).agents
      (wfId ++ "-" ++ t.agent)).isSome = true := by
    apply runPending_isSome
    exact hpres t ht
  obtain ⟨a1, ha1⟩ := Option.isSome_iff_exists.mp hpres2
  have hone : runPending (runPending
      (CoordState.mk c1.agents c1.messageQueues [] c1.events)
      (P ++ l1.map (fun q => (wfId ++ "-" ++ q.agent,
        AgentResult.mk true (generateRealisticResult (wfId ++ "-" ++ q.agent) q.task)))))
      [(wfId ++ "-" ++ t.agent,
        AgentResult.mk true (generateRealisticResult (wfId ++ "-" ++ t.agent) t.task))] =
      completeAgent (runPending
        (CoordState.mk c1.agents c1.messageQueues [] c1.events)
        (P ++ l1.map (fun q => (wfId ++ "-" ++ q.agent,
          AgentResult.mk true (generateRealisticResult (wfId ++ "-" ++ q.agent) q.task)))))
        (wfId ++ "-" ++ t.agent)
        (AgentResult.mk true (generateRealisticResult (wfId ++ "-" ++ t.agent) t.task)) := rfl
  rw [hone]
  have hnotmem : (wfId ++ "-" ++ t.agent) ∉ l2.map (fun q => wfId ++ "-" ++ q.agent) := by
    have h2 : ((l1 ++ t :: l2).map (fun q => wfId ++ "-" ++ q.agent)).Nodup := hnodup
    rw [List.map_append, List.map_cons] at h2
    exact (List.nodup_cons.mp (h2.sublist (List.sublist_append_right _ _))).1
  rw [runPending_get_not_mem _ (wfId ++ "-" ++ t.agent) ?_ _]
  · refine ⟨_, completeAgent_get_self _ _ _ a1 ha1, rfl⟩
  · intro p hpmem
    obtain ⟨q, hq, hqe⟩ := List.mem_map.mp hpmem
    intro hcontra
    apply hnotmem
    rw [← hcontra, ← hqe]
    exact List.mem_map_of_mem (fun s => wfId ++ "-" ++ s.agent) hq

/-- C7: a parallel workflow over tasks with pairwise distinct agent names,
none of whose agents exists yet, executes successfully and its results map
holds exactly one entry per declared task, keyed by the agent name of that task
(in the order Promise.all returns, which is task-declaration order and is in
particular independent of completion order). -/
theorem c7_parallel_results_complete (fs : FrameworkState) (wfId : String)
    (wf0 : Workflow)
    (hwf : alGet fs.workflows wfId = some wf0)
    (htype : wf0.type = "parallel")
    (hres : wf0.results = [])
    (hnames : (wf0.tasks.map WTask.agent).Nodup)
    (hfresh : ∀ t ∈ wf0.tasks, alGet fs.coord.agents (wf0.id ++ "-" ++ t.agent) = none) :
    ∃ fs2 wfOut, executeWorkflow fs wfId = (fs2, Except.ok wfOut) ∧
      wfOut.status = "completed" ∧
      wfOut.results.map Prod.fst = wf0.tasks.map WTask.agent ∧
      wfOut.results.length = wf0.tasks.length := by
  obtain ⟨wid, wty, wst, wcfg, wtasks, wag, wres, werr⟩ := wf0
  simp only at htype hres hnames hfresh
  subst htype
  subst hres
  have hids : (wtasks.map (fun t => wid ++ "-" ++ t.agent)).Nodup :=
    nodup_agent_ids wid wtasks hnames
  obtain ⟨c1, hspawn, hunt, hstat, hpend⟩ :=
    parSpawnAll_fresh wtasks fs.coord
      (Workflow.mk wid "parallel" "running" wcfg wtasks wag [] werr) hfresh hids
  dsimp only at hspawn hunt hstat hpend
  have hpresS : ∀ t ∈ wtasks, (alGet c1.agents (wid ++ "-" ++ t.agent)).isSome = true := by
    intro t ht
    rw [hstat t ht]
    rfl
  have hcomp : ∀ t ∈ wtasks, ∃ a2,
      alGet (fireCompletions c1).agents (wid ++ "-" ++ t.agent) = some a2 ∧
      a2.status = "completed" :=
    fire_batch wid wtasks c1 fs.coord.pending hpend hids hpresS
  have hD : dispatchStrategy fs.coord
      (Workflow.mk wid "parallel" "running" wcfg wtasks wag [] werr) =
      executeParallel fs.coord
        (Workflow.mk wid "parallel" "running" wcfg wtasks wag [] werr) := by
    simp [dispatchStrategy]
  cases wtasks with
  | nil =>
    have hEP : executeParallel fs.coord
        (Workflow.mk wid "parallel" "running" wcfg [] wag [] werr) =
        (c1, Workflow.mk wid "parallel" "running" wcfg [] (wag ++ []) [] werr,
         Except.ok ()) := by
      simp only [executeParallel, hspawn, parWaitAll, List.foldl_nil, List.map_nil]
    have hEW : executeWorkflow fs wfId =
        (FrameworkState.mk c1
          (alSet fs.workflows wfId
            (Workflow.mk wid "parallel" "completed" wcfg [] (wag ++ []) [] werr))
          (fs.events ++ [Event.workflowCompleted wfId]),
         Except.ok (Workflow.mk wid "parallel" "completed" wcfg [] (wag ++ []) [] werr)) := by
      simp only [executeWorkflow, hwf, hD, hEP]
    exact ⟨_, _, hEW, rfl, rfl, rfl⟩
  | cons t rest =>
    obtain ⟨a2, ha2, hc2⟩ := hcomp t (List.mem_cons_self _ _)
    have hw : waitForAgent c1 (wid ++ "-" ++ t.agent) waitFuel =
        (fireCompletions c1, Except.ok true) :=
      waitForAgent_idle_then_completed c1 (wid ++ "-" ++ t.agent) waitFuel
        (Agent.mk (wid ++ "-" ++ t.agent) t.task "idle" none)
        (hstat t (List.mem_cons_self _ _)) rfl a2 ha2 hc2 (by decide)
    obtain ⟨pairs, hrec, hmap⟩ := parWaitAll_completed wid rest (fireCompletions c1)
      (fun q hq => hcomp q (List.mem_cons_of_mem _ hq))
    have hparwait : parWaitAll c1 wid (t :: rest) =
        (fireCompletions c1, Except.ok ((t.agent, a2.results) :: pairs)) := by
      simp only [parWaitAll, hw, getAgentStatus_ok _ _ a2 ha2, hrec]
    have hkeys : (((t.agent, a2.results) :: pairs).map Prod.fst).Nodup := by
      simp only [List.map_cons, hmap]
      exact hnames
    have hfold : ((t.agent, a2.results) :: pairs).foldl
        (fun r p => alSet r p.1 p.2) ([] : List (String × Option AgentResult)) =
        (t.agent, a2.results) :: pairs := by
      rw [foldl_alSet_fresh _ [] (fun p _ => rfl) hkeys]
      rfl
    have hEP : executeParallel fs.coord
        (Workflow.mk wid "parallel" "running" wcfg (t :: rest) wag [] werr) =
        (fireCompletions c1,
         Workflow.mk wid "parallel" "running" wcfg (t :: rest)
           (wag ++ (t :: rest).map (fun q => wid ++ "-" ++ q.agent))
           ((t.agent, a2.results) :: pairs) werr,
         Except.ok ()) := by
      simp only [executeParallel, hspawn, hparwait, hfold]
    have hEW : executeWorkflow fs wfId =
        (FrameworkState.mk (fireCompletions c1)
          (alSet fs.workflows wfId
            (Workflow.mk wid "parallel" "completed" wcfg (t :: rest)
              (wag ++ (t :: rest).map (fun q => wid ++ "-" ++ q.agent))
              ((t.agent, a2.results) :: pairs) werr))
          (fs.events ++ [Event.workflowCompleted wfId]),
         Except.ok (Workflow.mk wid "parallel" "completed" wcfg (t :: rest)
           (wag ++ (t :: rest).map (fun q => wid ++ "-" ++ q.agent))
           ((t.agent, a2.results) :: pairs) werr)) := by
      simp only [executeWorkflow, hwf, hD, hEP]
    refine ⟨_, _, hEW, rfl, ?_, ?_⟩
    · simp only [List.map_cons, hmap]
    · have hlen := congrArg List.length hmap
      simp only [List.length_map] at hlen
      simp only [List.length_cons, List.length_map, hlen]

/-- C7 witness at a concrete two-task parallel workflow. -/
theorem c7_parallel_results_witness :
    ∃ fs2 wfOut, executeWorkflow
      (createWorkflow initialFramework "par" "parallel"
        (some [{ agent := "A", task := "ta", passResults := false },
               { agent := "B", task := "tb", passResults := false }])).1 "par" =
      (fs2, Except.ok wfOut) ∧
      wfOut.status = "completed" ∧
      wfOut.results.map Prod.fst =
        ([{ agent := "A", task := "ta", passResults := false },
          { agent := "B", task := "tb", passResults := false }] : List WTask).map WTask.agent ∧
      wfOut.results.length =
        ([{ agent := "A", task := "ta", passResults := false },
          { agent := "B", task := "tb", passResults := false }] : List WTask).length :=
  c7_parallel_results_complete
    (createWorkflow initialFramework "par" "parallel"
      (some [{ agent := "A", task := "ta", passResults := false },
             { agent := "B", task := "tb", passResults := false }])).1
    "par"
    { id := "par", type := "parallel", status := "initialized",
      config := some [{ agent := "A", task := "ta", passResults := false },
                      { agent := "B", task := "tb", passResults := false }],
      tasks := [{ agent := "A", task := "ta", passResults := false },
                { agent := "B", task := "tb", passResults := false }],
      agents := [], results := [], error := none }
    (by decide) (by decide) (by decide) (by decide) (by decide)
